import Mathlib

/-!
Verification of the wireview template cursor-context parser.

The repository ships three near-identical implementations of the parser:
a Kotlin one (object TemplateParser, PyCharm plugin), a TypeScript one
(class TemplateParser, VS Code extension) and a Lua one
(nvim lua/wireview/parser.lua).  This file gives a shallow embedding of all
three over `List Char` (documents are character sequences, offsets are
`Nat` character indices) and proves properties of the embedded code.

Regular-expression uses in the sources are embedded as bespoke matching
functions.  Each of the regexes involved is deterministic in the sense
that greedy repetition never needs global backtracking (every repeated
character class is disjoint from the character that must follow it), so a
direct functional matcher computes exactly the regex-engine result; find
or match semantics (leftmost match wins) are embedded by scanning start
positions left to right.  The character classes are embedded at their
ASCII meaning: regex whitespace is space, tab, LF, VT, FF, CR; Kotlin,
JavaScript word characters are letters, digits and underscore; Lua alnum
characters are letters and digits only (Lua has no underscore in its
class, which matters below).
-/

namespace Wireview

/-- Documents, tag texts and captured values are character lists. -/
abbrev Str := List Char

/-- The opening-brace character, written by code point to keep brace
characters out of string literals. -/
def lbrace : Char := Char.ofNat 123

/-- The closing-brace character. -/
def rbrace : Char := Char.ofNat 125

/-- The single-quote character. -/
def sq : Char := Char.ofNat 39

/-- The double-quote character. -/
def dq : Char := Char.ofNat 34

/-- The newline character. -/
def nl : Char := Char.ofNat 10

/-- Regex whitespace class: space, TAB, LF, VT, FF, CR. -/
def isWs (c : Char) : Bool :=
  c = ' ' || c = Char.ofNat 9 || c = Char.ofNat 10 || c = Char.ofNat 11 ||
  c = Char.ofNat 12 || c = Char.ofNat 13

/-- Word characters of the Kotlin and JavaScript regex class: letters,
digits and underscore (ASCII). -/
def isWordChar (c : Char) : Bool := c.isAlphanum || c = '_'

/-- Lua alphanumeric class: letters and digits, without underscore. -/
def isAlnum (c : Char) : Bool := c.isAlphanum

/-- Is the character one of the two quote characters. -/
def isQuote (c : Char) : Bool := c = sq || c = dq

/-- Match a literal character sequence at the head of the input and
return the rest. -/
def lit : Str → Str → Option Str
  | [], s => some s
  | _ :: _, [] => none
  | l :: ls, c :: cs => if c = l then lit ls cs else none

/-- Match a regex optional dash: consume one dash when present. -/
def optDash : Str → Str
  | [] => []
  | c :: cs => if c = '-' then cs else c :: cs

/-- Match an optional literal (regex greedy option): consume the literal
when it is present, leave the input alone otherwise. -/
def optLit (l : Str) (s : Str) : Str :=
  match lit l s with
  | some r => r
  | none => s

/-- Match regex one-or-more whitespace: requires at least one whitespace
character and consumes the maximal run. -/
def ws1 : Str → Option Str
  | [] => none
  | c :: cs => if isWs c then some (cs.dropWhile isWs) else none

/-- Match one character of the quote class. -/
def expectQuote : Str → Option Str
  | [] => none
  | c :: cs => if isQuote c then some cs else none

/-- Match one specific character. -/
def expectChar (q : Char) : Str → Option Str
  | [] => none
  | c :: cs => if c = q then some cs else none

/-- Regex find semantics: scan start positions left to right (the empty
suffix position at the end included) and return the first position, with
its index, at which the position matcher succeeds. -/
def scanFirst {α : Type} (m : Str → Option α) : Str → Option (Nat × α)
  | [] => (m []).map (fun a => (0, a))
  | c :: cs =>
    match m (c :: cs) with
    | some a => some (0, a)
    | none => (scanFirst m cs).map (fun r => (r.1 + 1, r.2))

/-- First index at or after the start index at which the two given
characters occur adjacently; auxiliary recursion carrying the index. -/
def idxOf2Aux (a b : Char) : Str → Nat → Option Nat
  | c1 :: c2 :: rest, i =>
    if c1 = a && c2 = b then some i else idxOf2Aux a b (c2 :: rest) (i + 1)
  | _, _ => none

/-- First index `i ≥ start` with `s[i] = a` and `s[i+1] = b`; this is the
embedding of `indexOf` of a two-character literal from a start index. -/
def idxOf2 (a b : Char) (s : Str) (start : Nat) : Option Nat :=
  (idxOf2Aux a b (s.drop start) 0).map (fun i => i + start)

/-! ## Data model

Embedding of `TagType`, `CursorPosition` and `CursorContext`
(`src/pycharm/.../parser/CursorContext.kt`).  The TypeScript and Lua
implementations use string unions with the same inhabitants
("component_name", "attribute_name", ...); all three are embedded into the
single enumeration below. -/

/-- Embedding of the `TagType` enumeration. -/
inductive TagType where
  | COMPONENT
  | COMPONENT_BLOCK
  | ON
  | FILL
  | RENDER_SLOT
deriving DecidableEq, Repr

/-- Embedding of the `CursorPosition` enumeration. -/
inductive CursorPosition where
  | COMPONENT_NAME
  | ATTRIBUTE_NAME
  | ATTRIBUTE_VALUE
  | HANDLER_NAME
  | EVENT_NAME
  | MODIFIER
  | SLOT_NAME
  | OUTSIDE
deriving DecidableEq, Repr

/-- Embedding of the `CursorContext` record; all fields default exactly as
in the Kotlin data class (the TypeScript and Lua records have the same
fields with absent values embedded as `none`). -/
structure CursorContext where
  inWireviewTag : Bool := false
  tagType : Option TagType := none
  position : CursorPosition := CursorPosition.OUTSIDE
  componentName : Option Str := none
  currentValue : Option Str := none
  attributeName : Option Str := none
  eventName : Option Str := none
deriving DecidableEq, Repr

/-- The default context (every field at its default). -/
def defaultContext : CursorContext := {}

/-! ## Kotlin tag locator (`TemplateParser.findEnclosingTag`, part_000)

```kotlin
var searchPos = 0
while (searchPos < content.length) {
    val tagStart = content.indexOf("{%", searchPos); if (tagStart == -1) break
    val tagEnd = content.indexOf("%}", tagStart); if (tagEnd == -1) break
    val actualEnd = tagEnd + 2
    if (offset in tagStart until actualEnd)
        return Pair(content.substring(tagStart, actualEnd), tagStart)
    searchPos = actualEnd
}
return null
```

The loop advances by at least three characters per iteration, so fuel
`content.length + 1` never runs out before the loop exits by itself. -/

/-- Loop body of the Kotlin locator, fuelled. -/
def ktFindEnclosingTagGo (content : Str) (offset : Nat) : Nat → Nat → Option (Str × Nat)
  | _, 0 => none
  | searchPos, fuel + 1 =>
    if searchPos < content.length then
      match idxOf2 lbrace '%' content searchPos with
      | none => none
      | some tagStart =>
        match idxOf2 '%' rbrace content tagStart with
        | none => none
        | some tagEnd =>
          let actualEnd := tagEnd + 2
          if tagStart ≤ offset ∧ offset < actualEnd then
            some ((content.drop tagStart).take (actualEnd - tagStart), tagStart)
          else
            ktFindEnclosingTagGo content offset actualEnd fuel
    else none

/-- Embedding of `TemplateParser.findEnclosingTag` (Kotlin). -/
def ktFindEnclosingTag (content : Str) (offset : Nat) : Option (Str × Nat) :=
  ktFindEnclosingTagGo content offset 0 (content.length + 1)

/-- Declarative side for claim C1: the list of tag spans `[s, e)` obtained
by scanning left to right, matching each occurrence of the opening
delimiter to the nearest following closing delimiter, with the same loop
guard and advancement as the source. -/
def ktSpansGo (content : Str) : Nat → Nat → List (Nat × Nat)
  | _, 0 => []
  | searchPos, fuel + 1 =>
    if searchPos < content.length then
      match idxOf2 lbrace '%' content searchPos with
      | none => []
      | some s =>
        match idxOf2 '%' rbrace content s with
        | none => []
        | some j => (s, j + 2) :: ktSpansGo content (j + 2) fuel
    else []

/-- The spans of a document. -/
def ktSpans (content : Str) : List (Nat × Nat) := ktSpansGo content 0 (content.length + 1)

/-- Boundary-inclusive containment of an offset in a span `[s, e)`:
from the first character of the opening delimiter through the final
closing-brace character (at index `e - 1`). -/
def spanContains (offset : Nat) (se : Nat × Nat) : Bool :=
  Nat.ble se.1 offset && Nat.blt offset se.2

/-- The text and start the locator reports for a span. -/
def spanResult (content : Str) (se : Nat × Nat) : Str × Nat :=
  ((content.drop se.1).take (se.2 - se.1), se.1)

/-! ## Tag-kind classifiers -/

/-- Position matcher for the Kotlin and TypeScript first-word pattern
(TAG_PATTERN): opening delimiter, optional whitespace, then a nonempty
word-character run.  Note the source pattern has no optional dash. -/
def matchTagWordHere (s : Str) : Option Str := do
  let s1 ← lit [lbrace, '%'] s
  let s2 := s1.dropWhile isWs
  let w := s2.takeWhile isWordChar
  if w.isEmpty then none else some w

/-- Embedding of `TemplateParser.detectTagType` (Kotlin, part_000): find
the first-word pattern anywhere in the tag text and map the five literal
keywords; anything else is no recognized tag. -/
def ktDetectTagType (tagContent : Str) : Option TagType :=
  match (scanFirst matchTagWordHere tagContent).map (fun r => r.2) with
  | none => none
  | some w =>
    if w = "component".toList then some TagType.COMPONENT
    else if w = "component_block".toList then some TagType.COMPONENT_BLOCK
    else if w = "on".toList then some TagType.ON
    else if w = "fill".toList then some TagType.FILL
    else if w = "render_slot".toList then some TagType.RENDER_SLOT
    else none

/-- Embedding of `TemplateParser.detectTagType` of the TypeScript parser
(part_010); its pattern and keyword mapping coincide with the Kotlin one,
including the absence of a dash alternative. -/
def tsDetectTagType (tagContent : Str) : Option TagType :=
  ktDetectTagType tagContent

/-- Position matcher for the Lua first-word pattern: opening delimiter,
optional dash, optional whitespace, then a nonempty alphanumeric run.
The Lua class has no underscore, so the run stops at an underscore. -/
def matchLuaTagWordHere (s : Str) : Option Str := do
  let s1 ← lit [lbrace, '%'] s
  let s2 := optDash s1
  let s3 := s2.dropWhile isWs
  let w := s3.takeWhile isAlnum
  if w.isEmpty then none else some w

/-- Embedding of `detect_tag_type` (parser.lua): extract the first word
and compare against the TAG_TYPES list in order. -/
def luaDetectTagType (tagContent : Str) : Option TagType :=
  match (scanFirst matchLuaTagWordHere tagContent).map (fun r => r.2) with
  | none => none
  | some w =>
    if w = "component".toList then some TagType.COMPONENT
    else if w = "component_block".toList then some TagType.COMPONENT_BLOCK
    else if w = "on".toList then some TagType.ON
    else if w = "fill".toList then some TagType.FILL
    else if w = "render_slot".toList then some TagType.RENDER_SLOT
    else none

/-! ## Kotlin string helpers -/

/-- Kotlin `substringBefore(delim)`: everything before the first
occurrence of the delimiter, the whole string when absent. -/
def substringBefore (s : Str) (c : Char) : Str :=
  s.takeWhile (fun x => x ≠ c)

/-- Kotlin `substringAfterLast(delim)`: everything after the last
occurrence of the delimiter, the whole string when absent. -/
def substringAfterLast (s : Str) (c : Char) : Str :=
  (s.reverse.takeWhile (fun x => x ≠ c)).reverse

/-- Trailing word-character run of a string; this is the capture of the
always-matching pattern of a word run anchored at the end. -/
def takeWordSuffix (s : Str) : Str :=
  (s.reverse.takeWhile isWordChar).reverse

/-! ## Kotlin component/component_block analyzer (part_000)

Matchers for the regexes of `parseComponentTag`. -/

/-- COMPONENT_NAME_PATTERN: delimiter, optional dash, optional whitespace,
the component keyword with optional block suffix, whitespace, a quote, a
nonempty non-quote run (the name), a quote. -/
def matchCompNameHere (s : Str) : Option Str := do
  let s1 ← lit [lbrace, '%'] s
  let s2 := optDash s1
  let s3 := s2.dropWhile isWs
  let s4 ← lit "component".toList s3
  let s5 := optLit "_block".toList s4
  let s6 ← ws1 s5
  let s7 ← expectQuote s6
  let name := s7.takeWhile (fun c => !(isQuote c))
  if name.isEmpty then none
  else (expectQuote (s7.dropWhile (fun c => !(isQuote c)))).map (fun _ => name)

/-- Kotlin `COMPONENT_NAME_PATTERN.find(tagContent)` capture. -/
def ktCompName (tagContent : Str) : Option Str :=
  (scanFirst matchCompNameHere tagContent).map (fun r => r.2)

/-- In-name pattern (quote character a parameter): delimiter, optional
dash and whitespace, component keyword with optional block suffix,
whitespace, the quote, then a run without that quote reaching the end of
the input (the pattern is anchored at the end). -/
def matchInNameQHere (q : Char) (s : Str) : Option Str := do
  let s1 ← lit [lbrace, '%'] s
  let s2 := optDash s1
  let s3 := s2.dropWhile isWs
  let s4 ← lit "component".toList s3
  let s5 := optLit "_block".toList s4
  let s6 ← ws1 s5
  let s7 ← expectChar q s6
  if s7.all (fun c => c ≠ q) then some s7 else none

/-- Find-anywhere version of the in-name pattern. -/
def reInNameQ (q : Char) (beforeCursor : Str) : Option Str :=
  (scanFirst (matchInNameQHere q) beforeCursor).map (fun r => r.2)

/-- After-name pattern: a quote followed by at least one whitespace and
then anything (no newline) to the end; the capture is everything after
the quote.  The dot class excludes newline, so the pattern matches
exactly when the character after the quote is whitespace and no newline
remains after the maximal whitespace run. -/
def matchAfterNameHere (s : Str) : Option Str := do
  let s1 ← expectQuote s
  match s1 with
  | [] => none
  | c :: _ =>
    if isWs c && (s1.dropWhile isWs).all (fun x => x ≠ nl) then some s1 else none

/-- Kotlin after-name capture (group 1 of the quote-whitespace pattern). -/
def reAfterName (beforeCursor : Str) : Option Str :=
  (scanFirst matchAfterNameHere beforeCursor).map (fun r => r.2)

/-- Attribute-with-equals pattern: a nonempty word run, optional
whitespace, an equals sign, optional whitespace, the end of the input;
the capture is the word run. -/
def matchAttrEqHere (s : Str) : Option Str :=
  let w := s.takeWhile isWordChar
  if w.isEmpty then none
  else
    match (s.dropWhile isWordChar).dropWhile isWs with
    | c :: rest =>
      if c = '=' && (rest.dropWhile isWs).isEmpty then some w else none
    | [] => none

/-- Find-anywhere version of the attribute-with-equals pattern. -/
def reAttrEq (afterName : Str) : Option Str :=
  (scanFirst matchAttrEqHere afterName).map (fun r => r.2)

/-- Attribute-with-open-quote pattern: word run, optional whitespace,
equals, optional whitespace, a quote, then a quote-free run to the end;
captures are the word and the run. -/
def matchAttrQHere (s : Str) : Option (Str × Str) :=
  let w := s.takeWhile isWordChar
  if w.isEmpty then none
  else
    match (s.dropWhile isWordChar).dropWhile isWs with
    | c :: rest =>
      if c = '=' then
        match rest.dropWhile isWs with
        | q :: rest2 =>
          if isQuote q && rest2.all (fun x => !(isQuote x)) then some (w, rest2) else none
        | [] => none
      else none
    | [] => none

/-- Find-anywhere version of the attribute-with-open-quote pattern. -/
def reAttrQ (afterName : Str) : Option (Str × Str) :=
  (scanFirst matchAttrQHere afterName).map (fun r => r.2)

/-- Embedding of `TemplateParser.parseComponentTag` (Kotlin).  The cursor
prefix is the tag text up to the in-tag cursor position (the source takes
the minimum with the length, which list `take` performs). -/
def ktParseComponentTag (tagContent : Str) (cursorInTag : Nat) : CursorContext :=
  let beforeCursor := tagContent.take cursorInTag
  let componentName := ktCompName tagContent
  match reInNameQ sq beforeCursor with
  | some v =>
    { inWireviewTag := true, tagType := ktDetectTagType tagContent,
      position := CursorPosition.COMPONENT_NAME, currentValue := some v }
  | none =>
  match reInNameQ dq beforeCursor with
  | some v =>
    { inWireviewTag := true, tagType := ktDetectTagType tagContent,
      position := CursorPosition.COMPONENT_NAME, currentValue := some v }
  | none =>
  match reAfterName beforeCursor with
  | some afterName =>
    match reAttrEq afterName with
    | some attr =>
      { inWireviewTag := true, tagType := ktDetectTagType tagContent,
        position := CursorPosition.ATTRIBUTE_VALUE, componentName := componentName,
        attributeName := some attr, currentValue := some [] }
    | none =>
    match reAttrQ afterName with
    | some av =>
      { inWireviewTag := true, tagType := ktDetectTagType tagContent,
        position := CursorPosition.ATTRIBUTE_VALUE, componentName := componentName,
        attributeName := some av.1, currentValue := some av.2 }
    | none =>
      { inWireviewTag := true, tagType := ktDetectTagType tagContent,
        position := CursorPosition.ATTRIBUTE_NAME, componentName := componentName,
        currentValue := some (takeWordSuffix afterName) }
  | none =>
    { inWireviewTag := true, tagType := ktDetectTagType tagContent,
      position := CursorPosition.OUTSIDE, componentName := componentName }

/-! ## Kotlin parent-component resolution (`findParentComponent`, part_000)

```kotlin
val searchContent = content.substring(0, offset)
val componentStack = mutableListOf<String>()
var pos = 0
while (pos < searchContent.length) {
    val openMatch = openPattern.find(searchContent, pos)
    val closeMatch = closePattern.find(searchContent, pos)
    ...earlier match wins: push capture / pop if nonempty / break...
    pos = match.range.last + 1
}
return componentStack.lastOrNull()
```
-/

/-- Open pattern of `findParentComponent`: delimiter, optional dash and
whitespace, the block keyword, whitespace, quote, nonempty non-quote name,
quote.  Returns the captured name and the number of characters the match
consumes. -/
def matchOpenCBHere (s : Str) : Option (Str × Nat) := do
  let s1 ← lit [lbrace, '%'] s
  let s2 := optDash s1
  let s3 := s2.dropWhile isWs
  let s4 ← lit "component_block".toList s3
  let s5 ← ws1 s4
  let s6 ← expectQuote s5
  let name := s6.takeWhile (fun c => !(isQuote c))
  if name.isEmpty then none
  else
    let s7 ← expectQuote (s6.dropWhile (fun c => !(isQuote c)))
    some (name, s.length - s7.length)

/-- Close pattern of `findParentComponent`: delimiter, optional dash and
whitespace, the end-block keyword, optional whitespace, the closing
delimiter.  Returns the number of characters the match consumes. -/
def matchCloseCBHere (s : Str) : Option Nat := do
  let s1 ← lit [lbrace, '%'] s
  let s2 := optDash s1
  let s3 := s2.dropWhile isWs
  let s4 ← lit "endcomponent_block".toList s3
  let s5 := s4.dropWhile isWs
  let s6 ← lit ['%', rbrace] s5
  some (s.length - s6.length)

/-- Find of the open pattern from a start position: start index, captured
name and index of the last matched character. -/
def findOpenCBFrom (s : Str) (pos : Nat) : Option (Nat × Str × Nat) :=
  (scanFirst matchOpenCBHere (s.drop pos)).map
    (fun r => (r.1 + pos, r.2.1, r.1 + pos + r.2.2 - 1))

/-- Find of the close pattern from a start position: start index and index
of the last matched character. -/
def findCloseCBFrom (s : Str) (pos : Nat) : Option (Nat × Nat) :=
  (scanFirst matchCloseCBHere (s.drop pos)).map
    (fun r => (r.1 + pos, r.1 + pos + r.2 - 1))

/-- One step of the stack walk: the earlier of the next open and close
match (an absent match loses against any present one), as a push or pop
event together with the position one past the match. -/
inductive CBEvent where
  | push (name : Str)
  | pop
deriving DecidableEq, Repr

/-- Next event of the walk at a scan position, mirroring the source's
comparison of the two match start offsets (an impossible tie, or two
absent matches, ends the walk). -/
def ktNextEvent (sc : Str) (pos : Nat) : Option (CBEvent × Nat) :=
  match findOpenCBFrom sc pos, findCloseCBFrom sc pos with
  | some o, some c =>
    if o.1 < c.1 then some (CBEvent.push o.2.1, o.2.2 + 1)
    else if c.1 < o.1 then some (CBEvent.pop, c.2 + 1)
    else none
  | some o, none => some (CBEvent.push o.2.1, o.2.2 + 1)
  | none, some c => some (CBEvent.pop, c.2 + 1)
  | none, none => none

/-- Loop of `findParentComponent`, fuelled; the stack grows at its end as
in the source (push appends, pop removes the last element when the stack
is nonempty) and the walk result is the last element if any. -/
def ktFindParentGo (sc : Str) : Nat → Nat → List Str → Option Str
  | 0, _, stack => stack.getLast?
  | fuel + 1, pos, stack =>
    if pos < sc.length then
      match ktNextEvent sc pos with
      | some (CBEvent.push name, p2) => ktFindParentGo sc fuel p2 (stack ++ [name])
      | some (CBEvent.pop, p2) =>
        ktFindParentGo sc fuel p2 (if stack.isEmpty then stack else stack.dropLast)
      | none => stack.getLast?
    else stack.getLast?

/-- Embedding of `TemplateParser.findParentComponent` (Kotlin). -/
def ktFindParentComponent (content : Str) (offset : Nat) : Option Str :=
  let sc := content.take offset
  ktFindParentGo sc (sc.length + 1) 0 []

/-- Declarative side for claim C2: the sequence of push and pop events in
document order over the prefix before the offset, obtained by the same
earlier-match-wins merge. -/
def ktCBEvents (sc : Str) : Nat → Nat → List CBEvent
  | 0, _ => []
  | fuel + 1, pos =>
    if pos < sc.length then
      match ktNextEvent sc pos with
      | some (e, p2) => e :: ktCBEvents sc fuel p2
      | none => []
    else []

/-- Stack transition of one event: a push puts the name on top, a pop
removes the top and is a silent no-op on an empty stack. -/
def applyCBEvent (stack : List Str) : CBEvent → List Str
  | CBEvent.push n => n :: stack
  | CBEvent.pop =>
    match stack with
    | [] => []
    | _ :: t => t

/-- Declarative parent component: top of the stack after consuming, in
document order, every event of the prefix before the offset. -/
def ktParentSpec (content : Str) (offset : Nat) : Option Str :=
  let sc := content.take offset
  ((ktCBEvents sc (sc.length + 1) 0).foldl applyCBEvent []).head?

/-! ## Kotlin on-tag analyzer (`parseOnTag`, part_000) -/

/-- EVENT_NAME_PATTERN: delimiter, optional dash and whitespace, the on
keyword, whitespace, a quote, then a nonempty run free of quotes and dots
(the event name stops at the first dot). -/
def matchEventNameHere (s : Str) : Option Str := do
  let s1 ← lit [lbrace, '%'] s
  let s2 := optDash s1
  let s3 := s2.dropWhile isWs
  let s4 ← lit "on".toList s3
  let s5 ← ws1 s4
  let s6 ← expectQuote s5
  let run := s6.takeWhile (fun c => !(isQuote c) && c ≠ '.')
  if run.isEmpty then none else some run

/-- Kotlin `EVENT_NAME_PATTERN.find(tagContent)` capture. -/
def ktEventName (tagContent : Str) : Option Str :=
  (scanFirst matchEventNameHere tagContent).map (fun r => r.2)

/-- In-event pattern (quote character a parameter): delimiter, optional
dash and whitespace, the on keyword, whitespace, the quote, then a run
without that quote reaching the end of the input. -/
def matchOnEventQHere (q : Char) (s : Str) : Option Str := do
  let s1 ← lit [lbrace, '%'] s
  let s2 := optDash s1
  let s3 := s2.dropWhile isWs
  let s4 ← lit "on".toList s3
  let s5 ← ws1 s4
  let s6 ← expectChar q s5
  if s6.all (fun c => c ≠ q) then some s6 else none

/-- Find-anywhere version of the in-event pattern. -/
def reOnEventQ (q : Char) (beforeCursor : Str) : Option Str :=
  (scanFirst (matchOnEventQHere q) beforeCursor).map (fun r => r.2)

/-- In-handler pattern, single-quote capture: a quote, whitespace, a
quote, then a run without single quotes reaching the end. -/
def matchHandlerSHere (s : Str) : Option Str := do
  let s1 ← expectQuote s
  let s2 ← ws1 s1
  let s3 ← expectQuote s2
  if s3.all (fun c => c ≠ sq) then some s3 else none

/-- In-handler pattern, double-quote variant: a quote, whitespace, a
double quote, then a run without double quotes reaching the end. -/
def matchHandlerDHere (s : Str) : Option Str := do
  let s1 ← expectQuote s
  let s2 ← ws1 s1
  let s3 ← expectChar dq s2
  if s3.all (fun c => c ≠ dq) then some s3 else none

/-- Find-anywhere versions of the two handler patterns. -/
def reHandlerS (beforeCursor : Str) : Option Str :=
  (scanFirst matchHandlerSHere beforeCursor).map (fun r => r.2)

/-- Find-anywhere double-quote handler capture. -/
def reHandlerD (beforeCursor : Str) : Option Str :=
  (scanFirst matchHandlerDHere beforeCursor).map (fun r => r.2)

/-- Pattern of a quote followed by whitespace at the end of the input
(the containment test before the empty-handler branch). -/
def matchQuoteWsEnd (s : Str) : Option Unit := do
  let s1 ← expectQuote s
  let s2 ← ws1 s1
  if s2.isEmpty then some () else none

/-- Does the quote-whitespace-end pattern match anywhere. -/
def hasQuoteWsEnd (beforeCursor : Str) : Bool :=
  (scanFirst matchQuoteWsEnd beforeCursor).isSome

/-- Embedding of `TemplateParser.parseOnTag` (Kotlin).  Takes the tag
text, the in-tag cursor position and, for parent resolution in the
handler branches, the full document and the absolute offset. -/
def ktParseOnTag (tagContent : Str) (cursorInTag : Nat)
    (fullContent : Str) (offset : Nat) : CursorContext :=
  let beforeCursor := tagContent.take cursorInTag
  let eventName := ktEventName tagContent
  let modCtx : Str → CursorContext := fun v =>
    if v.contains '.' then
      { inWireviewTag := true, tagType := some TagType.ON,
        position := CursorPosition.MODIFIER,
        eventName := some (substringBefore v '.'),
        currentValue := some (substringAfterLast v '.') }
    else
      { inWireviewTag := true, tagType := some TagType.ON,
        position := CursorPosition.EVENT_NAME, currentValue := some v }
  match reOnEventQ sq beforeCursor with
  | some v => modCtx v
  | none =>
  match reOnEventQ dq beforeCursor with
  | some v => modCtx v
  | none =>
  match reHandlerS beforeCursor, reHandlerD beforeCursor with
  | some hv, _ =>
    { inWireviewTag := true, tagType := some TagType.ON,
      position := CursorPosition.HANDLER_NAME,
      componentName := ktFindParentComponent fullContent offset,
      eventName := eventName, currentValue := some hv }
  | none, some hv =>
    { inWireviewTag := true, tagType := some TagType.ON,
      position := CursorPosition.HANDLER_NAME,
      componentName := ktFindParentComponent fullContent offset,
      eventName := eventName, currentValue := some hv }
  | none, none =>
  if hasQuoteWsEnd beforeCursor then
    { inWireviewTag := true, tagType := some TagType.ON,
      position := CursorPosition.HANDLER_NAME,
      componentName := ktFindParentComponent fullContent offset,
      eventName := eventName, currentValue := some [] }
  else
    { inWireviewTag := true, tagType := some TagType.ON,
      position := CursorPosition.OUTSIDE, eventName := eventName }

/-! ## Kotlin fill and render_slot analyzers (part_000) -/

/-- Bare slot pattern for a keyword: delimiter, optional dash and
whitespace, the keyword, whitespace, then a word-character run reaching
the end (the run may be empty). -/
def matchSlotBareHere (kw : Str) (s : Str) : Option Str := do
  let s1 ← lit [lbrace, '%'] s
  let s2 := optDash s1
  let s3 := s2.dropWhile isWs
  let s4 ← lit kw s3
  let s5 ← ws1 s4
  if s5.all isWordChar then some s5 else none

/-- Quoted slot pattern for a keyword and quote character: delimiter,
optional dash and whitespace, the keyword, whitespace, the quote, then a
run without that quote reaching the end. -/
def matchSlotQHere (kw : Str) (q : Char) (s : Str) : Option Str := do
  let s1 ← lit [lbrace, '%'] s
  let s2 := optDash s1
  let s3 := s2.dropWhile isWs
  let s4 ← lit kw s3
  let s5 ← ws1 s4
  let s6 ← expectChar q s5
  if s6.all (fun c => c ≠ q) then some s6 else none

/-- Find-anywhere bare slot capture. -/
def reSlotBare (kw : Str) (beforeCursor : Str) : Option Str :=
  (scanFirst (matchSlotBareHere kw) beforeCursor).map (fun r => r.2)

/-- Find-anywhere quoted slot capture. -/
def reSlotQ (kw : Str) (q : Char) (beforeCursor : Str) : Option Str :=
  (scanFirst (matchSlotQHere kw q) beforeCursor).map (fun r => r.2)

/-- The slot value of the Kotlin fill and render_slot analyzers: the bare
alternative first, then the single-quoted one, then the double-quoted
one. -/
def ktSlotValue (kw : Str) (beforeCursor : Str) : Option Str :=
  match reSlotBare kw beforeCursor with
  | some v => some v
  | none =>
    match reSlotQ kw sq beforeCursor with
    | some v => some v
    | none => reSlotQ kw dq beforeCursor

/-- Embedding of `TemplateParser.parseFillTag` (Kotlin). -/
def ktParseFillTag (tagContent : Str) (cursorInTag : Nat) : CursorContext :=
  let beforeCursor := tagContent.take cursorInTag
  match ktSlotValue "fill".toList beforeCursor with
  | some v =>
    { inWireviewTag := true, tagType := some TagType.FILL,
      position := CursorPosition.SLOT_NAME, currentValue := some v }
  | none =>
    { inWireviewTag := true, tagType := some TagType.FILL,
      position := CursorPosition.OUTSIDE }

/-- Embedding of `TemplateParser.parseRenderSlotTag` (Kotlin). -/
def ktParseRenderSlotTag (tagContent : Str) (cursorInTag : Nat) : CursorContext :=
  let beforeCursor := tagContent.take cursorInTag
  match ktSlotValue "render_slot".toList beforeCursor with
  | some v =>
    { inWireviewTag := true, tagType := some TagType.RENDER_SLOT,
      position := CursorPosition.SLOT_NAME, currentValue := some v }
  | none =>
    { inWireviewTag := true, tagType := some TagType.RENDER_SLOT,
      position := CursorPosition.OUTSIDE }

/-- Embedding of `TemplateParser.getCursorContextFromString` (Kotlin):
locate the enclosing tag, classify it and dispatch to the analyzer; an
unlocated or unrecognized tag yields the default context. -/
def ktGetCursorContextFromString (content : Str) (offset : Nat) : CursorContext :=
  match ktFindEnclosingTag content offset with
  | none => defaultContext
  | some tagInfo =>
    let tagContent := tagInfo.1
    let cursorInTag := offset - tagInfo.2
    match ktDetectTagType tagContent with
    | none => defaultContext
    | some TagType.COMPONENT => ktParseComponentTag tagContent cursorInTag
    | some TagType.COMPONENT_BLOCK => ktParseComponentTag tagContent cursorInTag
    | some TagType.ON => ktParseOnTag tagContent cursorInTag content offset
    | some TagType.FILL => ktParseFillTag tagContent cursorInTag
    | some TagType.RENDER_SLOT => ktParseRenderSlotTag tagContent cursorInTag

/-! ## Lua implementation (src/nvim/lua/wireview/parser.lua)

The Lua patterns differ from the Kotlin regexes in three relevant ways:
the word class has no underscore, the component keyword is followed by a
character class repetition (any run over the six characters of the block
suffix) rather than an optional literal, and the dot of the after-name
pattern matches newline too. -/

/-- The Lua character class of the block-suffix bracket expression. -/
def isBlockCls (c : Char) : Bool :=
  c = '_' || c = 'b' || c = 'l' || c = 'o' || c = 'c' || c = 'k'

/-- Trailing alphanumeric run (capture of the Lua trailing word pattern,
whose class has no underscore). -/
def takeAlnumSuffix (s : Str) : Str :=
  (s.reverse.takeWhile isAlnum).reverse

/-- Lua locator (`find_enclosing_tag`), fuelled: the first tag-shaped
match at or after the scan position is the first opening delimiter that
has a closing delimiter starting at least two characters later (the lazy
middle cannot overlap the delimiters); containment includes both
delimiter boundaries. -/
def luaFindEnclosingTagGo (content : Str) (offset : Nat) : Nat → Nat → Option (Str × Nat)
  | _, 0 => none
  | searchPos, fuel + 1 =>
    match idxOf2 lbrace '%' content searchPos with
    | none => none
    | some i =>
      match idxOf2 '%' rbrace content (i + 2) with
      | none => none
      | some j =>
        if i ≤ offset ∧ offset ≤ j + 1 then
          some ((content.drop i).take (j + 2 - i), i)
        else
          luaFindEnclosingTagGo content offset (j + 2) fuel

/-- Embedding of `find_enclosing_tag` (parser.lua), returning the tag
text and its zero-based start offset. -/
def luaFindEnclosingTag (content : Str) (offset : Nat) : Option (Str × Nat) :=
  luaFindEnclosingTagGo content offset 0 (content.length + 2)

/-- Lua component-name pattern: delimiter, optional dash and whitespace,
the component keyword, a run over the block-suffix class, whitespace, a
quote, a possibly empty non-quote run (the capture), a quote. -/
def matchLuaCompNameHere (s : Str) : Option Str := do
  let s1 ← lit [lbrace, '%'] s
  let s2 := optDash s1
  let s3 := s2.dropWhile isWs
  let s4 ← lit "component".toList s3
  let s5 := s4.dropWhile isBlockCls
  let s6 ← ws1 s5
  let s7 ← expectQuote s6
  let name := s7.takeWhile (fun c => !(isQuote c))
  (expectQuote (s7.dropWhile (fun c => !(isQuote c)))).map (fun _ => name)

/-- Lua in-name pattern for a quote character, anchored at the end. -/
def matchLuaInNameQHere (q : Char) (s : Str) : Option Str := do
  let s1 ← lit [lbrace, '%'] s
  let s2 := optDash s1
  let s3 := s2.dropWhile isWs
  let s4 ← lit "component".toList s3
  let s5 := s4.dropWhile isBlockCls
  let s6 ← ws1 s5
  let s7 ← expectChar q s6
  if s7.all (fun c => c ≠ q) then some s7 else none

/-- Lua after-name pattern: a quote, whitespace, then a capture of
everything after the maximal whitespace run (the Lua dot matches any
character, newline included). -/
def matchLuaAfterNameHere (s : Str) : Option Str := do
  let s1 ← expectQuote s
  match s1 with
  | [] => none
  | c :: _ => if isWs c then some (s1.dropWhile isWs) else none

/-- Lua attribute-with-equals pattern (alphanumeric word class). -/
def matchLuaAttrEqHere (s : Str) : Option Str :=
  let w := s.takeWhile isAlnum
  if w.isEmpty then none
  else
    match (s.dropWhile isAlnum).dropWhile isWs with
    | c :: rest =>
      if c = '=' && (rest.dropWhile isWs).isEmpty then some w else none
    | [] => none

/-- Lua attribute-with-open-quote pattern (alphanumeric word class). -/
def matchLuaAttrQHere (s : Str) : Option (Str × Str) :=
  let w := s.takeWhile isAlnum
  if w.isEmpty then none
  else
    match (s.dropWhile isAlnum).dropWhile isWs with
    | c :: rest =>
      if c = '=' then
        match rest.dropWhile isWs with
        | q :: rest2 =>
          if isQuote q && rest2.all (fun x => !(isQuote x)) then some (w, rest2) else none
        | [] => none
      else none
    | [] => none

/-- Leftmost-match captures of the Lua component-tag patterns. -/
def luaCompName (tagContent : Str) : Option Str :=
  (scanFirst matchLuaCompNameHere tagContent).map (fun r => r.2)

/-- Leftmost match of the Lua in-name pattern. -/
def luaInNameQ (q : Char) (beforeCursor : Str) : Option Str :=
  (scanFirst (matchLuaInNameQHere q) beforeCursor).map (fun r => r.2)

/-- Leftmost match of the Lua after-name pattern. -/
def luaAfterName (beforeCursor : Str) : Option Str :=
  (scanFirst matchLuaAfterNameHere beforeCursor).map (fun r => r.2)

/-- Leftmost match of the Lua attribute-with-equals pattern. -/
def luaAttrEq (afterName : Str) : Option Str :=
  (scanFirst matchLuaAttrEqHere afterName).map (fun r => r.2)

/-- Leftmost match of the Lua attribute-with-open-quote pattern. -/
def luaAttrQ (afterName : Str) : Option (Str × Str) :=
  (scanFirst matchLuaAttrQHere afterName).map (fun r => r.2)

/-- Embedding of `parse_component_tag` (parser.lua).  The Lua context is
initialized with position outside and the component name from the whole
tag, and the cursor prefix is the tag text through the in-tag cursor
position (one-based inclusive substring). -/
def luaParseComponentTag (tagContent : Str) (cursorInTag : Nat) : CursorContext :=
  let beforeCursor := tagContent.take cursorInTag
  let compName := luaCompName tagContent
  let base : CursorContext :=
    { inWireviewTag := true, tagType := luaDetectTagType tagContent,
      position := CursorPosition.OUTSIDE, componentName := compName }
  match luaInNameQ sq beforeCursor with
  | some v => { base with position := CursorPosition.COMPONENT_NAME, currentValue := some v }
  | none =>
  match luaInNameQ dq beforeCursor with
  | some v => { base with position := CursorPosition.COMPONENT_NAME, currentValue := some v }
  | none =>
  match luaAfterName beforeCursor with
  | some afterName =>
    match luaAttrEq afterName with
    | some attr =>
      { base with
        position := CursorPosition.ATTRIBUTE_VALUE,
        attributeName := some attr, currentValue := some [] }
    | none =>
    match luaAttrQ afterName with
    | some av =>
      { base with
        position := CursorPosition.ATTRIBUTE_VALUE,
        attributeName := some av.1, currentValue := some av.2 }
    | none =>
      { base with
        position := CursorPosition.ATTRIBUTE_NAME,
        currentValue := some (takeAlnumSuffix afterName) }
  | none =>
    if compName.isSome && beforeCursor.any isQuote then
      { base with position := CursorPosition.ATTRIBUTE_NAME, currentValue := some [] }
    else base

/-- Lua full-tag event-name pattern: like the Kotlin one but the run may
be empty (the Lua pattern uses a star). -/
def matchLuaEventNameHere (s : Str) : Option Str := do
  let s1 ← lit [lbrace, '%'] s
  let s2 := optDash s1
  let s3 := s2.dropWhile isWs
  let s4 ← lit "on".toList s3
  let s5 ← ws1 s4
  let s6 ← expectQuote s5
  some (s6.takeWhile (fun c => !(isQuote c) && c ≠ '.'))

/-- Leftmost match of the Lua full-tag event-name pattern. -/
def luaEventName (tagContent : Str) : Option Str :=
  (scanFirst matchLuaEventNameHere tagContent).map (fun r => r.2)

/-- Leading non-dot run, or nothing when the string starts with a dot
(the Lua anchored event-name extraction over the partial content). -/
def luaHeadNonDot (v : Str) : Option Str :=
  let h := v.takeWhile (fun c => c ≠ '.')
  if h.isEmpty then none else some h

/-- Embedding of `parse_on_tag` (parser.lua); the Lua analyzer never sets
the component name itself. -/
def luaParseOnTag (tagContent : Str) (cursorInTag : Nat) : CursorContext :=
  let beforeCursor := tagContent.take cursorInTag
  let eventName := luaEventName tagContent
  let base : CursorContext :=
    { inWireviewTag := true, tagType := some TagType.ON,
      position := CursorPosition.OUTSIDE, eventName := eventName }
  let evCtx : Str → CursorContext := fun v =>
    if v.contains '.' then
      { base with
        position := CursorPosition.MODIFIER,
        currentValue := some (substringAfterLast v '.'),
        eventName := luaHeadNonDot v }
    else
      { base with position := CursorPosition.EVENT_NAME, currentValue := some v }
  match reOnEventQ sq beforeCursor with
  | some v => evCtx v
  | none =>
  match reOnEventQ dq beforeCursor with
  | some v => evCtx v
  | none =>
  match reHandlerS beforeCursor with
  | some hv => { base with position := CursorPosition.HANDLER_NAME, currentValue := some hv }
  | none =>
  match reHandlerD beforeCursor with
  | some hv => { base with position := CursorPosition.HANDLER_NAME, currentValue := some hv }
  | none =>
  if hasQuoteWsEnd beforeCursor then
    { base with position := CursorPosition.HANDLER_NAME, currentValue := some [] }
  else base

/-- Lua bare slot pattern for a keyword: like the Kotlin one but over the
alphanumeric class without underscore. -/
def matchLuaSlotBareHere (kw : Str) (s : Str) : Option Str := do
  let s1 ← lit [lbrace, '%'] s
  let s2 := optDash s1
  let s3 := s2.dropWhile isWs
  let s4 ← lit kw s3
  let s5 ← ws1 s4
  if s5.all isAlnum then some s5 else none

/-- Leftmost match of the Lua bare slot pattern. -/
def luaSlotBare (kw : Str) (beforeCursor : Str) : Option Str :=
  (scanFirst (matchLuaSlotBareHere kw) beforeCursor).map (fun r => r.2)

/-- The slot value of the Lua fill and render_slot analyzers: bare form
first, then single-quoted, then double-quoted. -/
def luaSlotValue (kw : Str) (beforeCursor : Str) : Option Str :=
  match luaSlotBare kw beforeCursor with
  | some v => some v
  | none =>
    match reSlotQ kw sq beforeCursor with
    | some v => some v
    | none => reSlotQ kw dq beforeCursor

/-- Embedding of `parse_fill_tag` (parser.lua). -/
def luaParseFillTag (tagContent : Str) (cursorInTag : Nat) : CursorContext :=
  let beforeCursor := tagContent.take cursorInTag
  match luaSlotValue "fill".toList beforeCursor with
  | some v =>
    { inWireviewTag := true, tagType := some TagType.FILL,
      position := CursorPosition.SLOT_NAME, currentValue := some v }
  | none =>
    { inWireviewTag := true, tagType := some TagType.FILL,
      position := CursorPosition.OUTSIDE }

/-- Embedding of `parse_render_slot_tag` (parser.lua). -/
def luaParseRenderSlotTag (tagContent : Str) (cursorInTag : Nat) : CursorContext :=
  let beforeCursor := tagContent.take cursorInTag
  match luaSlotValue "render_slot".toList beforeCursor with
  | some v =>
    { inWireviewTag := true, tagType := some TagType.RENDER_SLOT,
      position := CursorPosition.SLOT_NAME, currentValue := some v }
  | none =>
    { inWireviewTag := true, tagType := some TagType.RENDER_SLOT,
      position := CursorPosition.OUTSIDE }

/-! ## Lua parent-component resolution (`find_parent_component`)

The Lua walk iterates over every tag-shaped match of a pattern capturing
the tag body: delimiter, optional dash and whitespace, then a nonempty
alphanumeric run followed by a lazy run of non-percent characters, closed
by the closing delimiter.  The lazy run cannot step over a percent
character, so a match exists at a position exactly when the first percent
at or after the end of the alphanumeric run is immediately followed by
the closing brace; the capture is everything from the word through just
before that percent. -/

/-- Global-match iteration (Lua gmatch, JavaScript global regexes): the
position matcher yields a capture and the length of the whole match; the
iteration collects the captures of successive leftmost matches, resuming
just past each match.  Fuelled; every match of the patterns used here
consumes at least one character, so the fuel never runs out first. -/
def gmatchGo (m : Str → Option (Str × Nat)) : Str → Nat → List Str
  | _, 0 => []
  | s, fuel + 1 =>
    match scanFirst m s with
    | none => []
    | some r => r.2.1 :: gmatchGo m (s.drop (r.1 + r.2.2)) fuel

/-- All captures of successive leftmost matches of a pattern. -/
def gmatchAll (m : Str → Option (Str × Nat)) (s : Str) : List Str :=
  gmatchGo m s (s.length + 1)

/-- Position matcher of the Lua tag pattern, returning the capture and
the number of characters consumed by the whole match. -/
def matchLuaGTagHere (s : Str) : Option (Str × Nat) := do
  let s1 ← lit [lbrace, '%'] s
  let s2 := optDash s1
  let s3 := s2.dropWhile isWs
  let w := s3.takeWhile isAlnum
  if w.isEmpty then none
  else
    let r := s3.dropWhile isAlnum
    let mid := r.takeWhile (fun c => c ≠ '%')
    match r.dropWhile (fun c => c ≠ '%') with
    | c1 :: c2 :: rest =>
      if c1 = '%' && c2 = rbrace then some (w ++ mid, s.length - rest.length) else none
    | _ => none

/-- The gmatch capture list of a document prefix. -/
def luaGmatchTags (s : Str) : List Str :=
  gmatchAll matchLuaGTagHere s

/-- Anchored Lua check of a captured tag body for an opening
component_block: the block keyword, whitespace, a quote, a nonempty
non-quote name, a quote; returns the name. -/
def luaTagOpenName (t : Str) : Option Str := do
  let r1 ← lit "component_block".toList t
  let r2 ← ws1 r1
  let r3 ← expectQuote r2
  let name := r3.takeWhile (fun c => !(isQuote c))
  if name.isEmpty then none
  else (expectQuote (r3.dropWhile (fun c => !(isQuote c)))).map (fun _ => name)

/-- Anchored Lua check of a captured tag body for a closing block tag. -/
def luaTagIsClose (t : Str) : Bool :=
  (lit "endcomponent_block".toList t).isSome

/-- Embedding of `find_parent_component` (parser.lua): fold the captured
tag bodies of the prefix before the offset through the push/pop stack
(push appends, pop removes the last element when the stack is nonempty)
and return the last element if any. -/
def luaFindParentComponent (content : Str) (offset : Nat) : Option Str :=
  let sc := content.take offset
  let stack := (luaGmatchTags sc).foldl
    (fun st t =>
      match luaTagOpenName t with
      | some n => st ++ [n]
      | none =>
        if luaTagIsClose t then (if st.isEmpty then st else st.dropLast) else st)
    []
  stack.getLast?

/-- Embedding of `get_cursor_context_from_string` (parser.lua).  The Lua
in-tag cursor position is one-based inclusive, hence the extra one; the
on branch attaches the parent component only when the analyzer left it
absent, and the fill branch attaches it unconditionally. -/
def luaGetCursorContextFromString (content : Str) (offset : Nat) : CursorContext :=
  match luaFindEnclosingTag content offset with
  | none => defaultContext
  | some tagInfo =>
    let tagContent := tagInfo.1
    let cursorInTag := offset - tagInfo.2 + 1
    match luaDetectTagType tagContent with
    | none => defaultContext
    | some TagType.COMPONENT => luaParseComponentTag tagContent cursorInTag
    | some TagType.COMPONENT_BLOCK => luaParseComponentTag tagContent cursorInTag
    | some TagType.ON =>
      let c := luaParseOnTag tagContent cursorInTag
      if c.componentName.isNone then
        { c with componentName := luaFindParentComponent content offset }
      else c
    | some TagType.FILL =>
      let c := luaParseFillTag tagContent cursorInTag
      { c with componentName := luaFindParentComponent content offset }
    | some TagType.RENDER_SLOT => luaParseRenderSlotTag tagContent cursorInTag

/-! ## TypeScript implementation (part_010, class TemplateParser)

JavaScript string helpers first: `indexOf` and `lastIndexOf` of a
substring (an empty needle is found at index zero, respectively at the
length) and `slice`. -/

/-- JavaScript `indexOf` of a substring. -/
def idxOfSub (needle : Str) : Str → Option Nat
  | [] => if needle.isEmpty then some 0 else none
  | c :: cs =>
    if needle.isPrefixOf (c :: cs) then some 0
    else (idxOfSub needle cs).map (fun i => i + 1)

/-- JavaScript `lastIndexOf` of a substring. -/
def lastIdxOfSub (needle : Str) : Str → Option Nat
  | [] => if needle.isEmpty then some 0 else none
  | c :: cs =>
    match (lastIdxOfSub needle cs).map (fun i => i + 1) with
    | some j => some j
    | none => if needle.isPrefixOf (c :: cs) then some 0 else none

/-- JavaScript `slice(a, b)` (clamping). -/
def jsSlice (s : Str) (a b : Nat) : Str := (s.drop a).take (b - a)

/-- Are the two given characters at positions `i` and `i + 1` (the
JavaScript two-character slice comparison). -/
def pairAt (a b : Char) (s : Str) (i : Nat) : Bool :=
  match s.drop i with
  | c1 :: c2 :: _ => c1 = a && c2 = b
  | _ => false

/-- Loop of the TypeScript locator `findEnclosingTag`: a single pass over
the character positions maintaining a depth counter (the depth may go
negative, hence an integer) and the start of the current depth-zero
opening delimiter; on returning to depth zero the candidate span is
emitted and tested, containment being inclusive at both the start and
one past the final brace. -/
def tsFindTagGo (content : Str) (offset : Nat) : Nat → Int → Option Nat → Nat → Option (Nat × Nat × Str)
  | _, _, _, 0 => none
  | i, depth, si, fuel + 1 =>
    if i < content.length then
      if pairAt lbrace '%' content i then
        tsFindTagGo content offset (i + 1) (depth + 1)
          (if depth = 0 then some i else si) fuel
      else if pairAt '%' rbrace content i then
        let depth2 := depth - 1
        if depth2 = 0 then
          match si with
          | some st =>
            let endIndex := i + 2
            if st ≤ offset ∧ offset ≤ endIndex then
              some (st, endIndex, (content.drop st).take (endIndex - st))
            else tsFindTagGo content offset (i + 1) depth2 none fuel
          | none => tsFindTagGo content offset (i + 1) depth2 none fuel
        else tsFindTagGo content offset (i + 1) depth2 si fuel
      else tsFindTagGo content offset (i + 1) depth si fuel
    else none

/-- Embedding of `findEnclosingTag` (TypeScript): start offset, end
offset and text of the located tag. -/
def tsFindEnclosingTag (content : Str) (offset : Nat) : Option (Nat × Nat × Str) :=
  tsFindTagGo content offset 0 0 none (content.length + 1)

/-- TypeScript component-name pattern for a keyword: delimiter, optional
whitespace, the keyword, whitespace, a quote, a possibly empty non-quote
capture, then one optional quote-or-whitespace character.  Returns the
whole matched text and the capture.  (No dash alternative: the
TypeScript patterns have none.) -/
def tsMatchNameHere (kw : Str) (s : Str) : Option (Str × Str) := do
  let s1 ← lit [lbrace, '%'] s
  let s2 := s1.dropWhile isWs
  let s3 ← lit kw s2
  let s4 ← ws1 s3
  let s5 ← expectQuote s4
  let cap := s5.takeWhile (fun c => !(isQuote c))
  let s6 := s5.dropWhile (fun c => !(isQuote c))
  let s7 := match s6 with
    | c :: cs => if isQuote c || isWs c then cs else s6
    | [] => s6
  some (s.take (s.length - s7.length), cap)

/-- Leftmost match of the TypeScript component-name pattern. -/
def tsNameMatch (kw : Str) (content : Str) : Option (Str × Str) :=
  (scanFirst (tsMatchNameHere kw) content).map (fun r => r.2)

/-- TypeScript before-name pattern for a keyword, anchored at the end:
delimiter, optional whitespace, keyword, whitespace, an optional quote,
then the end of the input. -/
def tsMatchBeforeNameHere (kw : Str) (s : Str) : Option Unit := do
  let s1 ← lit [lbrace, '%'] s
  let s2 := s1.dropWhile isWs
  let s3 ← lit kw s2
  let s4 ← ws1 s3
  match s4 with
  | [] => some ()
  | c :: rest => if isQuote c && rest.isEmpty then some () else none

/-- Does the TypeScript before-name pattern match anywhere. -/
def tsBeforeNameMatches (kw : Str) (beforeName : Str) : Bool :=
  (scanFirst (tsMatchBeforeNameHere kw) beforeName).isSome

/-- TypeScript attribute-equals pattern, anchored at the end: a nonempty
word run, optional whitespace, an equals sign, optional whitespace, an
optional quote, then a run free of quotes and whitespace reaching the
end; captures the word and the run. -/
def tsMatchAttrEqHere (s : Str) : Option (Str × Str) :=
  let w := s.takeWhile isWordChar
  if w.isEmpty then none
  else
    match (s.dropWhile isWordChar).dropWhile isWs with
    | c :: rest =>
      if c = '=' then
        let r2 := rest.dropWhile isWs
        let r3 := match r2 with
          | q :: qs => if isQuote q then qs else r2
          | [] => r2
        if r3.all (fun x => !(isQuote x) && !(isWs x)) then some (w, r3) else none
      else none
    | [] => none

/-- Leftmost match of the TypeScript attribute-equals pattern. -/
def tsAttrEqMatch (beforeCursor : Str) : Option (Str × Str) :=
  (scanFirst tsMatchAttrEqHere beforeCursor).map (fun r => r.2)

/-- TypeScript attribute-name pattern, anchored at the end: a whitespace
character followed by a word run reaching the end (the unique candidate
is the maximal trailing word run, whose preceding character must be
whitespace). -/
def tsAttrNameMatch (beforeCursor : Str) : Option Str :=
  let w := takeWordSuffix beforeCursor
  match (beforeCursor.take (beforeCursor.length - w.length)).getLast? with
  | some c => if isWs c then some w else none
  | none => none

/-- Embedding of `parseAttributeContext` (TypeScript). -/
def tsParseAttributeContext (content : Str) (relativeOffset : Nat)
    (componentName : Str) (tagType : TagType) : CursorContext :=
  let beforeCursor := content.take relativeOffset
  match tsAttrEqMatch beforeCursor with
  | some av =>
    { inWireviewTag := true, tagType := some tagType,
      position := CursorPosition.ATTRIBUTE_VALUE, componentName := some componentName,
      attributeName := some av.1, currentValue := some av.2 }
  | none =>
  match tsAttrNameMatch beforeCursor with
  | some w =>
    { inWireviewTag := true, tagType := some tagType,
      position := CursorPosition.ATTRIBUTE_NAME, componentName := some componentName,
      currentValue := some w }
  | none =>
    { inWireviewTag := true, tagType := some tagType,
      position := CursorPosition.ATTRIBUTE_NAME, componentName := some componentName }

/-- Embedding of `parseComponentTag` (TypeScript).  The name start is
recomputed through string searches exactly as in the source: the index
of the matched text in the tag plus the index of the capture within the
matched text. -/
def tsParseComponentTag (content : Str) (relativeOffset : Nat) (tagType : TagType) : CursorContext :=
  let kw := if tagType = TagType.COMPONENT then "component".toList else "component_block".toList
  let fallback : CursorContext :=
    let beforeName := content.take relativeOffset
    if tsBeforeNameMatches kw beforeName then
      { inWireviewTag := true, tagType := some tagType,
        position := CursorPosition.COMPONENT_NAME, currentValue := some [] }
    else
      { inWireviewTag := true, tagType := some tagType,
        position := CursorPosition.ATTRIBUTE_NAME }
  match tsNameMatch kw content with
  | some m =>
    let nameStart := (idxOfSub m.1 content).getD 0 + (idxOfSub m.2 m.1).getD 0
    let nameEnd := nameStart + m.2.length
    if nameStart ≤ relativeOffset ∧ relativeOffset ≤ nameEnd + 1 then
      { inWireviewTag := true, tagType := some tagType,
        position := CursorPosition.COMPONENT_NAME,
        currentValue := some (m.2.take (relativeOffset - nameStart)) }
    else if nameEnd < relativeOffset then
      tsParseAttributeContext content relativeOffset m.2 tagType
    else fallback
  | none => fallback

/-- TypeScript on-tag event-start pattern, anchored at the end:
delimiter, optional whitespace, the on keyword, whitespace, a quote, the
end. -/
def tsMatchOnEventStartHere (s : Str) : Option Unit := do
  let s1 ← lit [lbrace, '%'] s
  let s2 := s1.dropWhile isWs
  let s3 ← lit "on".toList s2
  let s4 ← ws1 s3
  let s5 ← expectQuote s4
  if s5.isEmpty then some () else none

/-- Does the event-start pattern match anywhere. -/
def tsOnEventStart (beforeCursor : Str) : Bool :=
  (scanFirst tsMatchOnEventStartHere beforeCursor).isSome

/-- TypeScript terminated-event pattern: delimiter, optional whitespace,
on, whitespace, quote, non-quote capture, quote; returns the matched text
and the capture. -/
def tsMatchOnEventHere (s : Str) : Option (Str × Str) := do
  let s1 ← lit [lbrace, '%'] s
  let s2 := s1.dropWhile isWs
  let s3 ← lit "on".toList s2
  let s4 ← ws1 s3
  let s5 ← expectQuote s4
  let cap := s5.takeWhile (fun c => !(isQuote c))
  let s6 ← expectQuote (s5.dropWhile (fun c => !(isQuote c)))
  some (s.take (s.length - s6.length), cap)

/-- Leftmost match of the terminated-event pattern. -/
def tsOnEventMatch (content : Str) : Option (Str × Str) :=
  (scanFirst tsMatchOnEventHere content).map (fun r => r.2)

/-- TypeScript handler-start pattern, anchored at the end: the
terminated first string, whitespace, a quote, the end. -/
def tsMatchOnHandlerStartHere (s : Str) : Option Unit := do
  let s1 ← lit [lbrace, '%'] s
  let s2 := s1.dropWhile isWs
  let s3 ← lit "on".toList s2
  let s4 ← ws1 s3
  let s5 ← expectQuote s4
  let s6 ← expectQuote (s5.dropWhile (fun c => !(isQuote c)))
  let s7 ← ws1 s6
  let s8 ← expectQuote s7
  if s8.isEmpty then some () else none

/-- Does the handler-start pattern match anywhere. -/
def tsOnHandlerStart (beforeCursor : Str) : Bool :=
  (scanFirst tsMatchOnHandlerStartHere beforeCursor).isSome

/-- TypeScript handler pattern: the terminated first string, whitespace,
a quote, a non-quote capture and an optional closing quote; returns the
matched text and the capture. -/
def tsMatchOnHandlerHere (s : Str) : Option (Str × Str) := do
  let s1 ← lit [lbrace, '%'] s
  let s2 := s1.dropWhile isWs
  let s3 ← lit "on".toList s2
  let s4 ← ws1 s3
  let s5 ← expectQuote s4
  let s6 ← expectQuote (s5.dropWhile (fun c => !(isQuote c)))
  let s7 ← ws1 s6
  let s8 ← expectQuote s7
  let cap := s8.takeWhile (fun c => !(isQuote c))
  let s9 := s8.dropWhile (fun c => !(isQuote c))
  let s10 := match s9 with
    | c :: cs => if isQuote c then cs else s9
    | [] => s9
  some (s.take (s.length - s10.length), cap)

/-- Leftmost match of the handler pattern. -/
def tsOnHandlerMatch (content : Str) : Option (Str × Str) :=
  (scanFirst tsMatchOnHandlerHere content).map (fun r => r.2)

/-- JavaScript `lastIndexOf` of a single character. -/
def lastIdxOfChar (c : Char) (s : Str) : Option Nat :=
  lastIdxOfSub [c] s

/-- Embedding of `parseOnTag` (TypeScript). -/
def tsParseOnTag (content : Str) (relativeOffset : Nat) : CursorContext :=
  let beforeCursor := content.take relativeOffset
  let deflt : CursorContext :=
    { inWireviewTag := true, tagType := some TagType.ON,
      position := CursorPosition.EVENT_NAME }
  if tsOnEventStart beforeCursor then
    { inWireviewTag := true, tagType := some TagType.ON,
      position := CursorPosition.EVENT_NAME, currentValue := some [] }
  else
    match tsOnEventMatch content with
    | none => deflt
    | some m =>
      let ev := m.2
      let eventStart := (idxOfSub m.1 content).getD 0 + (idxOfSub ev m.1).getD 0
      let eventEnd := eventStart + ev.length
      if eventStart ≤ relativeOffset ∧ relativeOffset ≤ eventEnd then
        let cursorInEvent := relativeOffset - eventStart
        let lastDotBelow : Bool :=
          match lastIdxOfChar '.' ev with
          | none => true
          | some k => decide (k < cursorInEvent)
        if lastDotBelow && ev.contains '.' then
          { inWireviewTag := true, tagType := some TagType.ON,
            position := CursorPosition.MODIFIER,
            eventName := some (substringBefore ev '.'),
            currentValue := some (jsSlice ev ((lastIdxOfChar '.' ev).getD 0 + 1) cursorInEvent) }
        else
          { inWireviewTag := true, tagType := some TagType.ON,
            position := CursorPosition.EVENT_NAME,
            currentValue := some (ev.take cursorInEvent) }
      else if tsOnHandlerStart beforeCursor then
        { inWireviewTag := true, tagType := some TagType.ON,
          position := CursorPosition.HANDLER_NAME,
          eventName := some (substringBefore ev '.'), currentValue := some [] }
      else
        match tsOnHandlerMatch content with
        | none => deflt
        | some hm =>
          let hv := hm.2
          let handlerStart := (idxOfSub hm.1 content).getD 0 + (lastIdxOfSub hv hm.1).getD 0
          let handlerEnd := handlerStart + hv.length
          if handlerStart ≤ relativeOffset ∧ relativeOffset ≤ handlerEnd + 1 then
            { inWireviewTag := true, tagType := some TagType.ON,
              position := CursorPosition.HANDLER_NAME,
              eventName := some (substringBefore ev '.'),
              currentValue := some (hv.take (relativeOffset - handlerStart)) }
          else deflt

/-- TypeScript fill slot pattern, anchored at the end: delimiter,
optional whitespace, fill, whitespace, a word run reaching the end (the
only form the TypeScript fill analyzer checks). -/
def tsMatchFillSlotHere (s : Str) : Option Str := do
  let s1 ← lit [lbrace, '%'] s
  let s2 := s1.dropWhile isWs
  let s3 ← lit "fill".toList s2
  let s4 ← ws1 s3
  if s4.all isWordChar then some s4 else none

/-- Leftmost match of the TypeScript fill slot pattern. -/
def tsFillSlotMatch (beforeCursor : Str) : Option Str :=
  (scanFirst tsMatchFillSlotHere beforeCursor).map (fun r => r.2)

/-- Embedding of `parseFillTag` (TypeScript): on no match the position is
still the slot name, only without a current value. -/
def tsParseFillTag (content : Str) (relativeOffset : Nat) : CursorContext :=
  let beforeCursor := content.take relativeOffset
  match tsFillSlotMatch beforeCursor with
  | some v =>
    { inWireviewTag := true, tagType := some TagType.FILL,
      position := CursorPosition.SLOT_NAME, currentValue := some v }
  | none =>
    { inWireviewTag := true, tagType := some TagType.FILL,
      position := CursorPosition.SLOT_NAME }

/-- TypeScript render_slot pattern, anchored at the end: delimiter,
optional whitespace, render_slot, whitespace, a quote, a non-quote run
reaching the end (the only form the TypeScript render_slot analyzer
checks). -/
def tsMatchRenderSlotHere (s : Str) : Option Str := do
  let s1 ← lit [lbrace, '%'] s
  let s2 := s1.dropWhile isWs
  let s3 ← lit "render_slot".toList s2
  let s4 ← ws1 s3
  let s5 ← expectQuote s4
  if s5.all (fun c => !(isQuote c)) then some s5 else none

/-- Leftmost match of the TypeScript render_slot pattern. -/
def tsRenderSlotMatch (beforeCursor : Str) : Option Str :=
  (scanFirst tsMatchRenderSlotHere beforeCursor).map (fun r => r.2)

/-- Embedding of `parseRenderSlotTag` (TypeScript): same fallback to the
slot-name position. -/
def tsParseRenderSlotTag (content : Str) (relativeOffset : Nat) : CursorContext :=
  let beforeCursor := content.take relativeOffset
  match tsRenderSlotMatch beforeCursor with
  | some v =>
    { inWireviewTag := true, tagType := some TagType.RENDER_SLOT,
      position := CursorPosition.SLOT_NAME, currentValue := some v }
  | none =>
    { inWireviewTag := true, tagType := some TagType.RENDER_SLOT,
      position := CursorPosition.SLOT_NAME }

/-- Global component_block pattern of `findComponentContext`: delimiter,
optional whitespace, the block keyword, whitespace, a quote, a nonempty
word capture, a quote.  The source re-extracts the name from the matched
text with a first quote-word-quote search, which on a text of this shape
recovers exactly the capture. -/
def tsMatchCBHere (s : Str) : Option (Str × Nat) := do
  let s1 ← lit [lbrace, '%'] s
  let s2 := s1.dropWhile isWs
  let s3 ← lit "component_block".toList s2
  let s4 ← ws1 s3
  let s5 ← expectQuote s4
  let w := s5.takeWhile isWordChar
  if w.isEmpty then none
  else
    let s6 ← expectQuote (s5.dropWhile isWordChar)
    some (w, s.length - s6.length)

/-- Global wireview-component attribute pattern: the literal attribute
text, a quote, a nonempty word capture, a quote. -/
def tsMatchWVAttrHere (s : Str) : Option (Str × Nat) := do
  let s1 ← lit "wireview-component=".toList s
  let s2 ← expectQuote s1
  let w := s2.takeWhile isWordChar
  if w.isEmpty then none
  else
    let s3 ← expectQuote (s2.dropWhile isWordChar)
    some (w, s.length - s3.length)

/-- Embedding of `findComponentContext` (TypeScript): the last opening
component_block capture before the offset, or failing that the last
wireview-component attribute capture, with no matching of closing
tags. -/
def tsFindComponentContext (content : Str) (offset : Nat) : Option Str :=
  let before := content.take offset
  match (gmatchAll tsMatchCBHere before).getLast? with
  | some n => some n
  | none => (gmatchAll tsMatchWVAttrHere before).getLast?

/-- Embedding of `getCursorContext` (TypeScript): when no tag encloses
the offset the outside context still carries the component context; an
unrecognized tag yields the outside context without it. -/
def tsGetCursorContext (content : Str) (offset : Nat) : CursorContext :=
  match tsFindEnclosingTag content offset with
  | none =>
    { inWireviewTag := false, tagType := none,
      position := CursorPosition.OUTSIDE,
      componentName := tsFindComponentContext content offset }
  | some tag =>
    match tsDetectTagType tag.2.2 with
    | none =>
      { inWireviewTag := false, tagType := none, position := CursorPosition.OUTSIDE }
    | some t =>
      let relativeOffset := offset - tag.1
      match t with
      | TagType.COMPONENT => tsParseComponentTag tag.2.2 relativeOffset TagType.COMPONENT
      | TagType.COMPONENT_BLOCK =>
        tsParseComponentTag tag.2.2 relativeOffset TagType.COMPONENT_BLOCK
      | TagType.ON => tsParseOnTag tag.2.2 relativeOffset
      | TagType.FILL => tsParseFillTag tag.2.2 relativeOffset
      | TagType.RENDER_SLOT => tsParseRenderSlotTag tag.2.2 relativeOffset

/-! ## Derived notions used by the claim statements -/

/-- Well-formedness of a locator span `[s, e)`: it is at least three
characters wide, lies within the document, starts with the opening
delimiter and ends with the closing delimiter (the final brace at index
`e - 1`).  The two delimiters may overlap in the degenerate
three-character span. -/
def spanWellFormed (content : Str) (se : Nat × Nat) : Bool :=
  decide (se.1 + 2 ≤ se.2) && decide (se.2 ≤ content.length) &&
  decide (content[se.1]? = some lbrace) && decide (content[se.1 + 1]? = some '%') &&
  decide (content[se.2 - 2]? = some '%') && decide (content[se.2 - 1]? = some rbrace)

/-- The partial event string of the Kotlin on-tag analyzer: the capture
of the unterminated-first-string pattern, the single-quoted alternative
checked before the double-quoted one, as in the source. -/
def ktOnEventCapture (beforeCursor : Str) : Option Str :=
  match reOnEventQ sq beforeCursor with
  | some v => some v
  | none => reOnEventQ dq beforeCursor

/-! ## Concrete documents used by the claims -/

/-- Nested component blocks with an open on tag; the cursor sits at the
bar character, five characters before the end. -/
def docNested : Str :=
  "\x7b% component_block 'Outer' %\x7d\x7b% component_block 'Inner' %\x7d\x7b% on 'click' '|' %\x7d".toList

/-- The same document with a closing block tag inserted before the on
tag. -/
def docNestedClosed : Str :=
  "\x7b% component_block 'Outer' %\x7d\x7b% component_block 'Inner' %\x7d\x7b% endcomponent_block %\x7d\x7b% on 'click' '|' %\x7d".toList

/-- On tag with a two-modifier chain; offset 29 is immediately after the
second modifier. -/
def onTagModifierChain : Str := "\x7b% on 'click.prevent.debounce' 'x' %\x7d".toList

/-- On tag whose event string has two dots; offset 12 is at the end of
the partial string. -/
def onTagDotted : Str := "\x7b% on 'a.b.c' 'x' %\x7d".toList

/-- Component tag with a partial attribute name after the closed
component name. -/
def compTagAttrName : Str := "\x7b% component 'Counter' coun".toList

/-- Component tag with a trailing unmatched equals sign. -/
def compTagAttrEq : Str := "\x7b% component 'Counter' count=".toList

/-- A fill tag nested in a component block; offset 34 is just after the
slot name. -/
def docFillInBlock : Str := "\x7b% component_block 'A' %\x7d\x7b% fill x %\x7d".toList

/-- A render_slot document; offset 4 is inside the keyword. -/
def docRenderSlot : Str := "\x7b% render_slot head %\x7d".toList

/-- A tag opening with the trim dash. -/
def tagDash : Str := "\x7b%- component 'X' %\x7d".toList

/-- A plain component tag. -/
def tagComponentPlain : Str := "\x7b% component 'X' %\x7d".toList

/-- A component_block tag. -/
def tagComponentBlock : Str := "\x7b% component_block 'X' %\x7d".toList

/-- A render_slot tag with a bare slot name. -/
def tagRenderSlotBare : Str := "\x7b% render_slot x %\x7d".toList

/-- A fill tag with no slot text. -/
def tagFillEmpty : Str := "\x7b% fill %\x7d".toList

/-- A fully closed component block surrounded by text; the last offset is
outside every tag. -/
def docClosedBlock : Str :=
  "ab\x7b% component_block 'A' %\x7d\x7b% endcomponent_block %\x7dcd".toList

/-- A document whose only component association is an HTML attribute. -/
def docWVAttr : Str := "a wireview-component=\"B\" b".toList

/-- A single minimal tag; offset 7 is one character past its final
brace. -/
def tagSimpleOn : Str := "\x7b% x %\x7d".toList

/-- Nested delimiters: an opening delimiter, a second opening delimiter,
the closing delimiter nearest to the first one, and a further closing
delimiter balancing the first. -/
def tagNestedDelims : Str := "\x7b%\x7b%%\x7d%\x7d".toList

/-! ## Supporting lemmas -/

lemma idxOf2Aux_spec {a b : Char} : ∀ (t : Str) (k i : Nat),
    idxOf2Aux a b t k = some i →
    k ≤ i ∧ t[i - k]? = some a ∧ t[i - k + 1]? = some b := by
  intro t
  induction t with
  | nil => intro k i h; exact Option.noConfusion h
  | cons c t ih =>
    intro k i h
    cases t with
    | nil => exact Option.noConfusion h
    | cons c2 rest =>
      rw [idxOf2Aux] at h
      split at h
      · rename_i hcc
        simp only [Option.some.injEq] at h
        subst h
        simp only [Bool.and_eq_true, decide_eq_true_eq] at hcc
        refine ⟨Nat.le_refl _, ?_, ?_⟩
        · simp [hcc.1]
        · simp [hcc.2]
      · obtain ⟨hk, h1, h2⟩ := ih (k + 1) i h
        refine ⟨by omega, ?_, ?_⟩
        · have he : i - k = (i - (k + 1)) + 1 := by omega
          rw [he]
          simpa using h1
        · have he : i - k + 1 = (i - (k + 1) + 1) + 1 := by omega
          rw [he]
          simpa using h2

lemma idxOf2_spec {a b : Char} {s : Str} {start i : Nat} (h : idxOf2 a b s start = some i) :
    start ≤ i ∧ s[i]? = some a ∧ s[i + 1]? = some b := by
  unfold idxOf2 at h
  cases h0 : idxOf2Aux a b (s.drop start) 0 with
  | none => rw [h0] at h; exact Option.noConfusion h
  | some i0 =>
    rw [h0] at h
    simp only [Option.map_some', Option.some.injEq] at h
    obtain ⟨-, h1, h2⟩ := idxOf2Aux_spec _ 0 i0 h0
    simp only [Nat.sub_zero] at h1 h2
    subst h
    refine ⟨Nat.le_add_left _ _, ?_, ?_⟩
    · rw [show i0 + start = start + i0 by omega, ← List.getElem?_drop]; exact h1
    · rw [show i0 + start + 1 = start + (i0 + 1) by omega, ← List.getElem?_drop]; exact h2

lemma spanContains_iff {offset : Nat} {se : Nat × Nat} :
    spanContains offset se = true ↔ se.1 ≤ offset ∧ offset < se.2 := by
  simp [spanContains, Nat.ble_eq, Nat.blt_eq]

lemma ktGo_eq_find (content : Str) (offset : Nat) :
    ∀ fuel pos, ktFindEnclosingTagGo content offset pos fuel =
      ((ktSpansGo content pos fuel).find? (spanContains offset)).map (spanResult content) := by
  intro fuel
  induction fuel with
  | zero => intro pos; rfl
  | succ fuel ih =>
    intro pos
    rw [ktFindEnclosingTagGo, ktSpansGo]
    by_cases hp : pos < content.length
    · rw [if_pos hp, if_pos hp]
      cases h1 : idxOf2 lbrace '%' content pos with
      | none => rfl
      | some s =>
        dsimp only
        cases h2 : idxOf2 '%' rbrace content s with
        | none => rfl
        | some j =>
          dsimp only
          by_cases hc : s ≤ offset ∧ offset < j + 2
          · rw [if_pos hc, List.find?_cons_of_pos _ (spanContains_iff.mpr hc)]
            simp [spanResult]
          · rw [if_neg hc, List.find?_cons_of_neg]
            · exact ih (j + 2)
            · simp only [spanContains_iff]; exact hc
    · rw [if_neg hp, if_neg hp]; simp

lemma ktSpansGo_mem_spec (content : Str) : ∀ fuel pos se, se ∈ ktSpansGo content pos fuel →
    pos ≤ se.1 ∧ spanWellFormed content se = true := by
  intro fuel
  induction fuel with
  | zero => intro pos se h; simp [ktSpansGo] at h
  | succ fuel ih =>
    intro pos se h
    rw [ktSpansGo] at h
    by_cases hp : pos < content.length
    · rw [if_pos hp] at h
      cases h1 : idxOf2 lbrace '%' content pos with
      | none => rw [h1] at h; simp at h
      | some s =>
        rw [h1] at h
        dsimp only at h
        cases h2 : idxOf2 '%' rbrace content s with
        | none => rw [h2] at h; simp at h
        | some j =>
          rw [h2] at h
          obtain ⟨hs1, hsa, hsb⟩ := idxOf2_spec h1
          obtain ⟨hs2, hja, hjb⟩ := idxOf2_spec h2
          have hjlen : j + 1 < content.length := (List.getElem?_eq_some.mp hjb).1
          rcases List.mem_cons.mp h with rfl | htail
          · refine ⟨hs1, ?_⟩
            simp only [spanWellFormed, Bool.and_eq_true, decide_eq_true_eq]
            refine ⟨⟨⟨⟨⟨by omega, by omega⟩, hsa⟩, hsb⟩, ?_⟩, ?_⟩
            · simpa using hja
            · simpa using hjb
          · obtain ⟨hle, hwf⟩ := ih (j + 2) se htail
            exact ⟨by omega, hwf⟩
    · rw [if_neg hp] at h; simp at h

lemma ktSpansGo_pairwise (content : Str) : ∀ fuel pos,
    (ktSpansGo content pos fuel).Pairwise (fun a b => a.2 ≤ b.1) := by
  intro fuel
  induction fuel with
  | zero => intro pos; simp [ktSpansGo]
  | succ fuel ih =>
    intro pos
    rw [ktSpansGo]
    by_cases hp : pos < content.length
    · rw [if_pos hp]
      cases h1 : idxOf2 lbrace '%' content pos with
      | none => simp
      | some s =>
        dsimp only
        cases h2 : idxOf2 '%' rbrace content s with
        | none => simp
        | some j =>
          dsimp only
          rw [List.pairwise_cons]
          refine ⟨fun b hb => ?_, ih (j + 2)⟩
          exact (ktSpansGo_mem_spec content fuel (j + 2) b hb).1
    · rw [if_neg hp]; simp

lemma ktFindParentGo_eq (sc : Str) : ∀ fuel pos (spec : List Str),
    ktFindParentGo sc fuel pos spec.reverse =
      ((ktCBEvents sc fuel pos).foldl applyCBEvent spec).head? := by
  intro fuel
  induction fuel with
  | zero => intro pos spec; simp [ktFindParentGo, ktCBEvents, List.getLast?_reverse]
  | succ fuel ih =>
    intro pos spec
    rw [ktFindParentGo, ktCBEvents]
    by_cases hp : pos < sc.length
    · rw [if_pos hp, if_pos hp]
      cases he : ktNextEvent sc pos with
      | none => simp [List.getLast?_reverse]
      | some ep =>
        obtain ⟨e, p2⟩ := ep
        cases e with
        | push n =>
          dsimp only
          rw [← List.reverse_cons]
          have hn := ih p2 (n :: spec)
          simpa [applyCBEvent] using hn
        | pop =>
          cases spec with
          | nil =>
            dsimp only
            simpa [applyCBEvent] using ih p2 []
          | cons a t =>
            dsimp only
            rw [List.reverse_cons]
            have hne : ((t.reverse ++ [a]).isEmpty) = false := by
              simp [List.isEmpty_iff]
            rw [hne]
            simp only [Bool.false_eq_true, if_false, List.dropLast_concat]
            simpa [applyCBEvent] using ih p2 t
    · rw [if_neg hp, if_neg hp]
      simp [List.getLast?_reverse]

lemma ktFindParentComponent_eq_spec (content : Str) (offset : Nat) :
    ktFindParentComponent content offset = ktParentSpec content offset := by
  unfold ktFindParentComponent ktParentSpec
  have h := ktFindParentGo_eq (content.take offset) ((content.take offset).length + 1) 0 []
  simpa using h

lemma ktParseComponentTag_fields (tc : Str) (ci : Nat) :
    (ktParseComponentTag tc ci).inWireviewTag = true ∧
    (ktParseComponentTag tc ci).tagType = ktDetectTagType tc := by
  unfold ktParseComponentTag
  dsimp only
  repeat' split
  all_goals exact ⟨rfl, rfl⟩

lemma ktParseOnTag_fields (tc : Str) (ci : Nat) (fc : Str) (off : Nat) :
    (ktParseOnTag tc ci fc off).inWireviewTag = true ∧
    (ktParseOnTag tc ci fc off).tagType = some TagType.ON := by
  unfold ktParseOnTag
  dsimp only
  repeat' split
  all_goals exact ⟨rfl, rfl⟩

lemma ktParseFillTag_fields (tc : Str) (ci : Nat) :
    (ktParseFillTag tc ci).inWireviewTag = true ∧
    (ktParseFillTag tc ci).tagType = some TagType.FILL ∧
    (ktParseFillTag tc ci).componentName = none := by
  unfold ktParseFillTag
  dsimp only
  repeat' split
  all_goals exact ⟨rfl, rfl, rfl⟩

lemma ktParseRenderSlotTag_fields (tc : Str) (ci : Nat) :
    (ktParseRenderSlotTag tc ci).inWireviewTag = true ∧
    (ktParseRenderSlotTag tc ci).tagType = some TagType.RENDER_SLOT ∧
    (ktParseRenderSlotTag tc ci).componentName = none := by
  unfold ktParseRenderSlotTag
  dsimp only
  repeat' split
  all_goals exact ⟨rfl, rfl, rfl⟩

lemma luaParseComponentTag_fields (tc : Str) (ci : Nat) :
    (luaParseComponentTag tc ci).inWireviewTag = true ∧
    (luaParseComponentTag tc ci).tagType = luaDetectTagType tc := by
  unfold luaParseComponentTag
  dsimp only
  repeat' split
  all_goals exact ⟨rfl, rfl⟩

lemma luaParseOnTag_fields (tc : Str) (ci : Nat) :
    (luaParseOnTag tc ci).inWireviewTag = true ∧
    (luaParseOnTag tc ci).tagType = some TagType.ON := by
  unfold luaParseOnTag
  dsimp only
  repeat' split
  all_goals exact ⟨rfl, rfl⟩

lemma luaParseFillTag_fields (tc : Str) (ci : Nat) :
    (luaParseFillTag tc ci).inWireviewTag = true ∧
    (luaParseFillTag tc ci).tagType = some TagType.FILL ∧
    (luaParseFillTag tc ci).componentName = none := by
  unfold luaParseFillTag
  dsimp only
  repeat' split
  all_goals exact ⟨rfl, rfl, rfl⟩

lemma luaParseRenderSlotTag_fields (tc : Str) (ci : Nat) :
    (luaParseRenderSlotTag tc ci).inWireviewTag = true ∧
    (luaParseRenderSlotTag tc ci).tagType = some TagType.RENDER_SLOT ∧
    (luaParseRenderSlotTag tc ci).componentName = none := by
  unfold luaParseRenderSlotTag
  dsimp only
  repeat' split
  all_goals exact ⟨rfl, rfl, rfl⟩

lemma tsParseAttributeContext_fields (c : Str) (ro : Nat) (cn : Str) (t : TagType) :
    (tsParseAttributeContext c ro cn t).inWireviewTag = true ∧
    (tsParseAttributeContext c ro cn t).tagType = some t ∧
    (tsParseAttributeContext c ro cn t).componentName = some cn := by
  unfold tsParseAttributeContext
  dsimp only
  repeat' split
  all_goals exact ⟨rfl, rfl, rfl⟩

lemma tsParseComponentTag_fields (c : Str) (ro : Nat) (t : TagType) :
    (tsParseComponentTag c ro t).inWireviewTag = true ∧
    (tsParseComponentTag c ro t).tagType = some t := by
  unfold tsParseComponentTag
  dsimp only
  repeat' split
  all_goals first
    | exact ⟨rfl, rfl⟩
    | exact ⟨(tsParseAttributeContext_fields _ _ _ _).1, (tsParseAttributeContext_fields _ _ _ _).2.1⟩

lemma tsParseOnTag_fields (c : Str) (ro : Nat) :
    (tsParseOnTag c ro).inWireviewTag = true ∧
    (tsParseOnTag c ro).tagType = some TagType.ON := by
  unfold tsParseOnTag
  dsimp only
  repeat' split
  all_goals exact ⟨rfl, rfl⟩

lemma tsParseFillTag_fields (c : Str) (ro : Nat) :
    (tsParseFillTag c ro).inWireviewTag = true ∧
    (tsParseFillTag c ro).tagType = some TagType.FILL ∧
    (tsParseFillTag c ro).componentName = none ∧
    (tsParseFillTag c ro).position = CursorPosition.SLOT_NAME := by
  unfold tsParseFillTag
  dsimp only
  repeat' split
  all_goals exact ⟨rfl, rfl, rfl, rfl⟩

lemma tsParseRenderSlotTag_fields (c : Str) (ro : Nat) :
    (tsParseRenderSlotTag c ro).inWireviewTag = true ∧
    (tsParseRenderSlotTag c ro).tagType = some TagType.RENDER_SLOT ∧
    (tsParseRenderSlotTag c ro).componentName = none ∧
    (tsParseRenderSlotTag c ro).position = CursorPosition.SLOT_NAME := by
  unfold tsParseRenderSlotTag
  dsimp only
  repeat' split
  all_goals exact ⟨rfl, rfl, rfl, rfl⟩

lemma scanFirst_exists {α : Type} (m : Str → Option α) :
    ∀ (s : Str) (r : Nat × α), scanFirst m s = some r → ∃ t : Str, m t = some r.2 := by
  intro s
  induction s with
  | nil =>
    intro r h
    rw [scanFirst] at h
    cases hm : m [] with
    | none => rw [hm] at h; exact Option.noConfusion h
    | some a =>
      rw [hm] at h
      simp only [Option.map_some', Option.some.injEq] at h
      exact ⟨[], by rw [hm, ← h]⟩
  | cons c cs ih =>
    intro r h
    rw [scanFirst] at h
    cases hm : m (c :: cs) with
    | some a =>
      rw [hm] at h
      simp only [Option.some.injEq] at h
      exact ⟨c :: cs, by rw [hm, ← h]⟩
    | none =>
      rw [hm] at h
      cases hr : scanFirst m cs with
      | none => rw [hr] at h; exact Option.noConfusion h
      | some r2 =>
        rw [hr] at h
        simp only [Option.map_some', Option.some.injEq] at h
        obtain ⟨t, ht⟩ := ih r2 hr
        exact ⟨t, by rw [ht, ← h]⟩

lemma matchLuaTagWordHere_alnum {s w : Str} (h : matchLuaTagWordHere s = some w) :
    ∀ c ∈ w, isAlnum c = true := by
  unfold matchLuaTagWordHere at h
  cases hl : lit [lbrace, '%'] s with
  | none => rw [hl] at h; exact Option.noConfusion h
  | some s1 =>
    rw [hl] at h
    dsimp only [Option.bind_eq_bind, Option.some_bind] at h
    split at h
    · exact Option.noConfusion h
    · simp only [Option.some.injEq] at h
      subst h
      intro c hc
      exact List.mem_takeWhile_imp hc

lemma luaDetectTagType_ne_rs (tc : Str) :
    luaDetectTagType tc ≠ some TagType.RENDER_SLOT := by
  unfold luaDetectTagType
  cases hw : (scanFirst matchLuaTagWordHere tc).map (fun r => r.2) with
  | none => simp
  | some w =>
    have hall : ∀ c ∈ w, isAlnum c = true := by
      cases hs : scanFirst matchLuaTagWordHere tc with
      | none => rw [hs] at hw; exact Option.noConfusion hw
      | some r =>
        rw [hs] at hw
        simp only [Option.map_some', Option.some.injEq] at hw
        obtain ⟨t, ht⟩ := scanFirst_exists _ tc r hs
        subst hw
        exact matchLuaTagWordHere_alnum ht
    dsimp only
    split
    · simp
    · split
      · rename_i hcb
        exfalso
        have hu : isAlnum '_' = true := hall '_' (by rw [hcb]; decide)
        simp [isAlnum, Char.isAlphanum, Char.isAlpha, Char.isDigit, Char.isUpper,
          Char.isLower] at hu
      · split
        · simp
        · split
          · simp
          · split
            · rename_i hrs
              exfalso
              have hu : isAlnum '_' = true := hall '_' (by rw [hrs]; decide)
              simp [isAlnum, Char.isAlphanum, Char.isAlpha, Char.isDigit, Char.isUpper,
                Char.isLower] at hu
            · simp

lemma tsFindTagGo_spec (content : Str) (offset : Nat) :
    ∀ fuel i depth si r, tsFindTagGo content offset i depth si fuel = some r →
      r.1 ≤ offset ∧ offset ≤ r.2.1 ∧
      r.2.2 = (content.drop r.1).take (r.2.1 - r.1) := by
  intro fuel
  induction fuel with
  | zero => intro i depth si r h; exact Option.noConfusion h
  | succ fuel ih =>
    intro i depth si r h
    rw [tsFindTagGo] at h
    by_cases hi : i < content.length
    · rw [if_pos hi] at h
      split at h
      · exact ih _ _ _ r h
      · split at h
        · dsimp only at h
          split at h
          · cases si with
            | some st =>
              dsimp only at h
              split at h
              · rename_i hc
                simp only [Option.some.injEq] at h
                subst h
                exact ⟨hc.1, hc.2, rfl⟩
              · exact ih _ _ _ r h
            | none => exact ih _ _ _ r h
          · exact ih _ _ _ r h
        · exact ih _ _ _ r h
    · rw [if_neg hi] at h; exact Option.noConfusion h

/-! ## Claim theorems -/

/-- Claim C1, counterexample: the claimed span semantics fail on the
TypeScript locator the claim also cites.  On a single minimal tag the
offset one character after the final brace — contained in no scan span,
and rejected by the Kotlin locator — is still contained for the
TypeScript locator (its containment test is inclusive of the end
offset); and on nested delimiters the TypeScript locator matches the
opening delimiter to the balancing closing delimiter, returning the
eight-character span where the nearest-match scan (and the Kotlin
locator) produce the six-character span. -/
theorem claim1_counterexample :
    tsFindEnclosingTag tagSimpleOn 7 = some (0, 7, tagSimpleOn) ∧
    (ktSpans tagSimpleOn).find? (spanContains 7) = none ∧
    ktFindEnclosingTag tagSimpleOn 7 = none ∧
    tsFindEnclosingTag tagNestedDelims 3 = some (0, 8, tagNestedDelims) ∧
    ktFindEnclosingTag tagNestedDelims 3 = some (tagNestedDelims.take 6, 0) ∧
    ktSpans tagNestedDelims = [(0, 6)] := by
  decide

/-- Claim C1, amended: the Kotlin locator `findEnclosingTag` satisfies
the claim as stated — it returns the text and start of the span
containing the offset, where the spans are those produced by scanning
left to right and matching each opening delimiter to the nearest
following closing delimiter (an unmatched opening delimiter produces no
span and stops the scan); the spans are pairwise disjoint in scan order,
every span starts with the opening delimiter and ends with the final
brace at index `e - 1`, containment is the boundary-inclusive `[s, e)` —
so an offset one character before the opening delimiter or at `e` (one
past the final brace) is not contained — and none is returned when no
span contains the offset.  The TypeScript locator differs: every tag it
returns satisfies only the end-inclusive containment
`startOffset ≤ offset ≤ endOffset` (with the text the corresponding
slice), so the offset one character after the final brace is contained,
and its depth counter pairs an opening delimiter with the balancing
closing delimiter rather than the nearest one, as the counterexample's
nested-delimiter document exhibits. -/
theorem claim1_locator_spans (content : Str) (offset : Nat) :
    (ktFindEnclosingTag content offset =
      ((ktSpans content).find? (spanContains offset)).map (spanResult content) ∧
     (ktSpans content).Pairwise (fun a b => a.2 ≤ b.1) ∧
     (ktSpans content).all (spanWellFormed content) = true) ∧
    (tsFindEnclosingTag content offset).all
      (fun r => decide (r.1 ≤ offset) && decide (offset ≤ r.2.1) &&
        decide (r.2.2 = (content.drop r.1).take (r.2.1 - r.1))) = true := by
  refine ⟨⟨ktGo_eq_find content offset _ 0, ktSpansGo_pairwise content _ 0, ?_⟩, ?_⟩
  · rw [List.all_eq_true]
    intro se hse
    exact (ktSpansGo_mem_spec content _ 0 se hse).2
  · cases h : tsFindEnclosingTag content offset with
    | none => rfl
    | some r =>
      obtain ⟨h1, h2, h3⟩ := tsFindTagGo_spec content offset _ 0 0 none r h
      simp [Option.all, h1, h2, h3]

/-- Claim C2: `findParentComponent` on the prefix before the offset
equals the head of the stack obtained by folding the document-ordered
push and pop events (opening component_block tags push their quoted
name, closing tags pop with a silent no-op on the empty stack), with
none for the empty stack; on the nested example document the cursor at
the bar resolves to Inner, and with a closing tag inserted before the on
tag it resolves to Outer (in both the Kotlin and the Lua walk). -/
theorem claim2_parent_resolution (content : Str) (offset : Nat) :
    ktFindParentComponent content offset = ktParentSpec content offset ∧
    ktFindParentComponent docNested (docNested.length - 5) = some "Inner".toList ∧
    ktFindParentComponent docNestedClosed (docNestedClosed.length - 5) = some "Outer".toList ∧
    luaFindParentComponent docNested (docNested.length - 5) = some "Inner".toList ∧
    luaFindParentComponent docNestedClosed (docNestedClosed.length - 5) = some "Outer".toList := by
  exact ⟨ktFindParentComponent_eq_spec content offset, by decide, by decide, by decide, by decide⟩

/-- Claim C3, counterexample: for the partial event string with two dots
the analyzer is in the Modifier position as claimed, but the reported
event name is the text before the first dot, not before the last dot as
the claim states. -/
theorem claim3_counterexample :
    (ktParseOnTag onTagDotted 12 onTagDotted 12).position = CursorPosition.MODIFIER ∧
    (ktParseOnTag onTagDotted 12 onTagDotted 12).eventName = some "a".toList ∧
    decide ((ktParseOnTag onTagDotted 12 onTagDotted 12).eventName = some "a.b".toList) =
      false := by
  decide

/-- Claim C3, amended: when the prefix ends inside an unterminated quoted
string directly after the on keyword and the partial string contains a
dot, the position is Modifier, the reported event name is everything
before the FIRST dot, and the current value (the in-progress modifier)
is everything after the last dot. -/
theorem claim3_modifier_event_name (tc : Str) (ci : Nat) (fc : Str) (off : Nat) (v : Str)
    (h : ktOnEventCapture (tc.take ci) = some v) (hdot : v.contains '.' = true) :
    ktParseOnTag tc ci fc off =
      { inWireviewTag := true, tagType := some TagType.ON,
        position := CursorPosition.MODIFIER,
        eventName := some (substringBefore v '.'),
        currentValue := some (substringAfterLast v '.') } := by
  unfold ktOnEventCapture at h
  unfold ktParseOnTag
  dsimp only
  cases hs : reOnEventQ sq (tc.take ci) with
  | some w =>
    rw [hs] at h
    simp only [Option.some.injEq] at h
    subst h
    have hmem : '.' ∈ w := by simpa using hdot
    simp [hmem]
  | none =>
    rw [hs] at h
    dsimp only at h
    rw [h]
    have hmem : '.' ∈ v := by simpa using hdot
    simp [hmem]

/-- Claim C3, witness: the amended statement applied at the two-dot
example. -/
theorem claim3_witness :
    ktParseOnTag onTagDotted 12 onTagDotted 12 =
      { inWireviewTag := true, tagType := some TagType.ON,
        position := CursorPosition.MODIFIER,
        eventName := some (substringBefore "a.b.c".toList '.'),
        currentValue := some (substringAfterLast "a.b.c".toList '.') } :=
  claim3_modifier_event_name onTagDotted 12 onTagDotted 12 "a.b.c".toList
    (by decide) (by decide)

/-- Claim C4: for the on tag with the two-modifier chain and the cursor
immediately after the second modifier, both the Kotlin and the
TypeScript analyzer report the Modifier position, event name click and
current value debounce (the intermediate modifier is not surfaced). -/
theorem claim4_modifier_tie_break :
    (ktParseOnTag onTagModifierChain 29 onTagModifierChain 29).position =
      CursorPosition.MODIFIER ∧
    (ktParseOnTag onTagModifierChain 29 onTagModifierChain 29).eventName =
      some "click".toList ∧
    (ktParseOnTag onTagModifierChain 29 onTagModifierChain 29).currentValue =
      some "debounce".toList ∧
    (tsParseOnTag onTagModifierChain 29).position = CursorPosition.MODIFIER ∧
    (tsParseOnTag onTagModifierChain 29).eventName = some "click".toList ∧
    (tsParseOnTag onTagModifierChain 29).currentValue = some "debounce".toList := by
  decide

/-- Claim C5: with the cursor at the end, the partial bare word after the
closed component name is an attribute name, and a trailing unmatched
equals sign switches to the attribute-value position with an empty
current value — in the Kotlin analyzer, in the Lua analyzer (whose
in-tag cursor is one-based inclusive, hence the extra one), and in the
TypeScript analyzer. -/
theorem claim5_attribute_positions :
    (ktParseComponentTag compTagAttrName compTagAttrName.length).position =
      CursorPosition.ATTRIBUTE_NAME ∧
    (ktParseComponentTag compTagAttrName compTagAttrName.length).currentValue =
      some "coun".toList ∧
    (ktParseComponentTag compTagAttrEq compTagAttrEq.length).position =
      CursorPosition.ATTRIBUTE_VALUE ∧
    (ktParseComponentTag compTagAttrEq compTagAttrEq.length).attributeName =
      some "count".toList ∧
    (ktParseComponentTag compTagAttrEq compTagAttrEq.length).currentValue = some [] ∧
    (luaParseComponentTag compTagAttrName (compTagAttrName.length + 1)).position =
      CursorPosition.ATTRIBUTE_NAME ∧
    (luaParseComponentTag compTagAttrName (compTagAttrName.length + 1)).currentValue =
      some "coun".toList ∧
    (luaParseComponentTag compTagAttrEq (compTagAttrEq.length + 1)).position =
      CursorPosition.ATTRIBUTE_VALUE ∧
    (luaParseComponentTag compTagAttrEq (compTagAttrEq.length + 1)).attributeName =
      some "count".toList ∧
    (luaParseComponentTag compTagAttrEq (compTagAttrEq.length + 1)).currentValue =
      some [] ∧
    (tsParseComponentTag compTagAttrName compTagAttrName.length TagType.COMPONENT).position =
      CursorPosition.ATTRIBUTE_NAME ∧
    (tsParseComponentTag compTagAttrName compTagAttrName.length TagType.COMPONENT).currentValue =
      some "coun".toList ∧
    (tsParseComponentTag compTagAttrEq compTagAttrEq.length TagType.COMPONENT).position =
      CursorPosition.ATTRIBUTE_VALUE ∧
    (tsParseComponentTag compTagAttrEq compTagAttrEq.length TagType.COMPONENT).attributeName =
      some "count".toList ∧
    (tsParseComponentTag compTagAttrEq compTagAttrEq.length TagType.COMPONENT).currentValue =
      some [] := by
  decide

/-- Claim C6, counterexample: on a fill tag with an empty prefix none of
the three partial-token forms matches, yet the TypeScript analyzer
reports the SlotName position rather than Outside (its render_slot
analyzer behaves the same way). -/
theorem claim6_counterexample :
    ktSlotValue "fill".toList (tagFillEmpty.take 0) = none ∧
    (tsParseFillTag tagFillEmpty 0).position = CursorPosition.SLOT_NAME ∧
    decide ((tsParseFillTag tagFillEmpty 0).position = CursorPosition.OUTSIDE) = false ∧
    decide ((tsParseRenderSlotTag tagFillEmpty 0).position = CursorPosition.OUTSIDE) =
      false := by
  decide

/-- Claim C6, amended: the Kotlin and Lua fill and render_slot analyzers
check the prefix against the three alternative partial-token forms (bare
word first, then single-quoted, then double-quoted, combined in the slot
value), report SlotName with the captured partial on a match and Outside
otherwise; the TypeScript analyzers check only one form each and report
SlotName in every case, never Outside. -/
theorem claim6_slot_analyzers (tc : Str) (ci : Nat) :
    (((ktParseFillTag tc ci).position = CursorPosition.SLOT_NAME ∧
      (ktParseFillTag tc ci).currentValue = ktSlotValue "fill".toList (tc.take ci) ∧
      (ktSlotValue "fill".toList (tc.take ci)).isSome = true) ∨
     ((ktParseFillTag tc ci).position = CursorPosition.OUTSIDE ∧
      ktSlotValue "fill".toList (tc.take ci) = none)) ∧
    (((ktParseRenderSlotTag tc ci).position = CursorPosition.SLOT_NAME ∧
      (ktParseRenderSlotTag tc ci).currentValue =
        ktSlotValue "render_slot".toList (tc.take ci) ∧
      (ktSlotValue "render_slot".toList (tc.take ci)).isSome = true) ∨
     ((ktParseRenderSlotTag tc ci).position = CursorPosition.OUTSIDE ∧
      ktSlotValue "render_slot".toList (tc.take ci) = none)) ∧
    (((luaParseFillTag tc ci).position = CursorPosition.SLOT_NAME ∧
      (luaParseFillTag tc ci).currentValue = luaSlotValue "fill".toList (tc.take ci) ∧
      (luaSlotValue "fill".toList (tc.take ci)).isSome = true) ∨
     ((luaParseFillTag tc ci).position = CursorPosition.OUTSIDE ∧
      luaSlotValue "fill".toList (tc.take ci) = none)) ∧
    (((luaParseRenderSlotTag tc ci).position = CursorPosition.SLOT_NAME ∧
      (luaParseRenderSlotTag tc ci).currentValue =
        luaSlotValue "render_slot".toList (tc.take ci) ∧
      (luaSlotValue "render_slot".toList (tc.take ci)).isSome = true) ∨
     ((luaParseRenderSlotTag tc ci).position = CursorPosition.OUTSIDE ∧
      luaSlotValue "render_slot".toList (tc.take ci) = none)) ∧
    (tsParseFillTag tc ci).position = CursorPosition.SLOT_NAME ∧
    (tsParseRenderSlotTag tc ci).position = CursorPosition.SLOT_NAME := by
  refine ⟨?_, ?_, ?_, ?_,
    (tsParseFillTag_fields tc ci).2.2.2, (tsParseRenderSlotTag_fields tc ci).2.2.2⟩
  · cases h : ktSlotValue "fill".toList (tc.take ci) with
    | some v =>
      refine Or.inl ?_
      unfold ktParseFillTag
      dsimp only
      rw [h]
      exact ⟨rfl, rfl, rfl⟩
    | none =>
      refine Or.inr ?_
      unfold ktParseFillTag
      dsimp only
      rw [h]
      exact ⟨rfl, rfl⟩
  · cases h : ktSlotValue "render_slot".toList (tc.take ci) with
    | some v =>
      refine Or.inl ?_
      unfold ktParseRenderSlotTag
      dsimp only
      rw [h]
      exact ⟨rfl, rfl, rfl⟩
    | none =>
      refine Or.inr ?_
      unfold ktParseRenderSlotTag
      dsimp only
      rw [h]
      exact ⟨rfl, rfl⟩
  · cases h : luaSlotValue "fill".toList (tc.take ci) with
    | some v =>
      refine Or.inl ?_
      unfold luaParseFillTag
      dsimp only
      rw [h]
      exact ⟨rfl, rfl, rfl⟩
    | none =>
      refine Or.inr ?_
      unfold luaParseFillTag
      dsimp only
      rw [h]
      exact ⟨rfl, rfl⟩
  · cases h : luaSlotValue "render_slot".toList (tc.take ci) with
    | some v =>
      refine Or.inl ?_
      unfold luaParseRenderSlotTag
      dsimp only
      rw [h]
      exact ⟨rfl, rfl, rfl⟩
    | none =>
      refine Or.inr ?_
      unfold luaParseRenderSlotTag
      dsimp only
      rw [h]
      exact ⟨rfl, rfl⟩

/-- Claim C7, counterexample: a fill query inside a component block in
the Kotlin pipeline carries no component name although parent-component
resolution on the same document and offset yields one. -/
theorem claim7_counterexample :
    (ktGetCursorContextFromString docFillInBlock 34).tagType = some TagType.FILL ∧
    (ktGetCursorContextFromString docFillInBlock 34).componentName = none ∧
    ktFindParentComponent docFillInBlock 34 = some "A".toList := by
  decide

/-- Claim C7, amended: only the nvim pipeline attaches componentName to
fill queries via parent-component resolution on the full document and
offset; the Kotlin and VS Code pipelines leave componentName absent on
every fill and render_slot query, and the nvim pipeline produces no
render_slot query at all (its classifier cannot return that kind). -/
theorem claim7_component_attachment (content : Str) (offset : Nat) :
    ((ktGetCursorContextFromString content offset).tagType = some TagType.FILL →
      (ktGetCursorContextFromString content offset).componentName = none) ∧
    ((ktGetCursorContextFromString content offset).tagType = some TagType.RENDER_SLOT →
      (ktGetCursorContextFromString content offset).componentName = none) ∧
    ((tsGetCursorContext content offset).tagType = some TagType.FILL →
      (tsGetCursorContext content offset).componentName = none) ∧
    ((tsGetCursorContext content offset).tagType = some TagType.RENDER_SLOT →
      (tsGetCursorContext content offset).componentName = none) ∧
    ((luaGetCursorContextFromString content offset).tagType = some TagType.FILL →
      (luaGetCursorContextFromString content offset).componentName =
        luaFindParentComponent content offset) ∧
    decide ((luaGetCursorContextFromString content offset).tagType =
      some TagType.RENDER_SLOT) = false := by
  refine ⟨?_, ?_, ?_, ?_, ?_, ?_⟩
  · unfold ktGetCursorContextFromString
    cases hloc : ktFindEnclosingTag content offset with
    | none => exact fun _ => rfl
    | some tagInfo =>
      dsimp only
      cases hdet : ktDetectTagType tagInfo.1 with
      | none => exact fun _ => rfl
      | some t =>
        cases t with
        | COMPONENT =>
          intro h
          rw [(ktParseComponentTag_fields _ _).2, hdet] at h
          simp at h
        | COMPONENT_BLOCK =>
          intro h
          rw [(ktParseComponentTag_fields _ _).2, hdet] at h
          simp at h
        | ON =>
          intro h
          rw [(ktParseOnTag_fields _ _ _ _).2] at h
          simp at h
        | FILL => exact fun _ => (ktParseFillTag_fields _ _).2.2
        | RENDER_SLOT => exact fun _ => (ktParseRenderSlotTag_fields _ _).2.2
  · unfold ktGetCursorContextFromString
    cases hloc : ktFindEnclosingTag content offset with
    | none => exact fun _ => rfl
    | some tagInfo =>
      dsimp only
      cases hdet : ktDetectTagType tagInfo.1 with
      | none => exact fun _ => rfl
      | some t =>
        cases t with
        | COMPONENT =>
          intro h
          rw [(ktParseComponentTag_fields _ _).2, hdet] at h
          simp at h
        | COMPONENT_BLOCK =>
          intro h
          rw [(ktParseComponentTag_fields _ _).2, hdet] at h
          simp at h
        | ON =>
          intro h
          rw [(ktParseOnTag_fields _ _ _ _).2] at h
          simp at h
        | FILL => exact fun _ => (ktParseFillTag_fields _ _).2.2
        | RENDER_SLOT => exact fun _ => (ktParseRenderSlotTag_fields _ _).2.2
  · unfold tsGetCursorContext
    cases hloc : tsFindEnclosingTag content offset with
    | none => intro h; simp at h
    | some tag =>
      dsimp only
      cases hdet : tsDetectTagType tag.2.2 with
      | none => exact fun _ => rfl
      | some t =>
        cases t with
        | COMPONENT =>
          intro h
          rw [(tsParseComponentTag_fields _ _ _).2] at h
          simp at h
        | COMPONENT_BLOCK =>
          intro h
          rw [(tsParseComponentTag_fields _ _ _).2] at h
          simp at h
        | ON =>
          intro h
          rw [(tsParseOnTag_fields _ _).2] at h
          simp at h
        | FILL => exact fun _ => (tsParseFillTag_fields _ _).2.2.1
        | RENDER_SLOT => exact fun _ => (tsParseRenderSlotTag_fields _ _).2.2.1
  · unfold tsGetCursorContext
    cases hloc : tsFindEnclosingTag content offset with
    | none => intro h; simp at h
    | some tag =>
      dsimp only
      cases hdet : tsDetectTagType tag.2.2 with
      | none => exact fun _ => rfl
      | some t =>
        cases t with
        | COMPONENT =>
          intro h
          rw [(tsParseComponentTag_fields _ _ _).2] at h
          simp at h
        | COMPONENT_BLOCK =>
          intro h
          rw [(tsParseComponentTag_fields _ _ _).2] at h
          simp at h
        | ON =>
          intro h
          rw [(tsParseOnTag_fields _ _).2] at h
          simp at h
        | FILL => exact fun _ => (tsParseFillTag_fields _ _).2.2.1
        | RENDER_SLOT => exact fun _ => (tsParseRenderSlotTag_fields _ _).2.2.1
  · unfold luaGetCursorContextFromString
    cases hloc : luaFindEnclosingTag content offset with
    | none => intro h; simp [defaultContext] at h
    | some tagInfo =>
      dsimp only
      cases hdet : luaDetectTagType tagInfo.1 with
      | none => intro h; simp [defaultContext] at h
      | some t =>
        cases t with
        | COMPONENT =>
          intro h
          rw [(luaParseComponentTag_fields _ _).2, hdet] at h
          simp at h
        | COMPONENT_BLOCK =>
          intro h
          rw [(luaParseComponentTag_fields _ _).2, hdet] at h
          simp at h
        | ON =>
          dsimp only
          split
          · intro h
            simp [(luaParseOnTag_fields tagInfo.1 (offset - tagInfo.2 + 1)).2] at h
          · intro h
            simp [(luaParseOnTag_fields tagInfo.1 (offset - tagInfo.2 + 1)).2] at h
        | FILL => exact fun _ => rfl
        | RENDER_SLOT =>
          intro h
          simp [(luaParseRenderSlotTag_fields tagInfo.1 (offset - tagInfo.2 + 1)).2.1] at h
  · rw [decide_eq_false_iff_not]
    unfold luaGetCursorContextFromString
    cases hloc : luaFindEnclosingTag content offset with
    | none => simp [defaultContext]
    | some tagInfo =>
      dsimp only
      cases hdet : luaDetectTagType tagInfo.1 with
      | none => simp [defaultContext]
      | some t =>
        cases t with
        | COMPONENT =>
          rw [(luaParseComponentTag_fields _ _).2, hdet]
          simp
        | COMPONENT_BLOCK =>
          rw [(luaParseComponentTag_fields _ _).2, hdet]
          simp
        | ON =>
          dsimp only
          split
          · intro h
            simp [(luaParseOnTag_fields tagInfo.1 (offset - tagInfo.2 + 1)).2] at h
          · intro h
            simp [(luaParseOnTag_fields tagInfo.1 (offset - tagInfo.2 + 1)).2] at h
        | FILL =>
          intro h
          simp [(luaParseFillTag_fields tagInfo.1 (offset - tagInfo.2 + 1)).2.1] at h
        | RENDER_SLOT => exact absurd hdet (luaDetectTagType_ne_rs _)

/-- Claim C7, witness: the amended statement applied at a fill query
inside a component block (Kotlin, VS Code, nvim) and at a render_slot
query (Kotlin, VS Code). -/
theorem claim7_witness :
    (ktGetCursorContextFromString docFillInBlock 34).componentName = none ∧
    (ktGetCursorContextFromString docRenderSlot 4).componentName = none ∧
    (tsGetCursorContext docFillInBlock 34).componentName = none ∧
    (tsGetCursorContext docRenderSlot 4).componentName = none ∧
    (luaGetCursorContextFromString docFillInBlock 34).componentName =
      luaFindParentComponent docFillInBlock 34 :=
  ⟨(claim7_component_attachment docFillInBlock 34).1 (by decide),
   (claim7_component_attachment docRenderSlot 4).2.1 (by decide),
   (claim7_component_attachment docFillInBlock 34).2.2.1 (by decide),
   (claim7_component_attachment docRenderSlot 4).2.2.2.1 (by decide),
   (claim7_component_attachment docFillInBlock 34).2.2.2.2.1 (by decide)⟩

/-- Claim C8: the Kotlin and TypeScript first-word pattern has no trim
dash alternative (every sibling pattern in the same Kotlin file has
one), so a tag opening with the dash is unclassified, and the Lua word
class lacks the underscore, so component_block classifies as component
and render_slot as nothing, although the TAG_TYPES list names both; an
unclassified tag makes the pipeline return the default outside
context. -/
theorem claim8_classifier_eval :
    ktDetectTagType tagDash = none ∧
    ktDetectTagType tagComponentPlain = some TagType.COMPONENT ∧
    tsDetectTagType tagDash = none ∧
    luaDetectTagType tagDash = some TagType.COMPONENT ∧
    luaDetectTagType tagComponentBlock = some TagType.COMPONENT ∧
    ktDetectTagType tagComponentBlock = some TagType.COMPONENT_BLOCK ∧
    luaDetectTagType tagRenderSlotBare = none ∧
    ktDetectTagType tagRenderSlotBare = some TagType.RENDER_SLOT ∧
    ktGetCursorContextFromString tagDash 5 = defaultContext ∧
    luaGetCursorContextFromString tagRenderSlotBare 4 = defaultContext := by
  decide

/-- Claim C9: in all three pipelines, every produced context has either
the Outside position or the in-tag flag set — position not Outside
implies the flag is true. -/
theorem claim9_position_invariant (content : Str) (offset : Nat) :
    ((ktGetCursorContextFromString content offset).position = CursorPosition.OUTSIDE ∨
      (ktGetCursorContextFromString content offset).inWireviewTag = true) ∧
    ((luaGetCursorContextFromString content offset).position = CursorPosition.OUTSIDE ∨
      (luaGetCursorContextFromString content offset).inWireviewTag = true) ∧
    ((tsGetCursorContext content offset).position = CursorPosition.OUTSIDE ∨
      (tsGetCursorContext content offset).inWireviewTag = true) := by
  refine ⟨?_, ?_, ?_⟩
  · unfold ktGetCursorContextFromString
    dsimp only
    repeat' split
    all_goals first
      | exact Or.inl rfl
      | exact Or.inr (ktParseComponentTag_fields _ _).1
      | exact Or.inr (ktParseOnTag_fields _ _ _ _).1
      | exact Or.inr (ktParseFillTag_fields _ _).1
      | exact Or.inr (ktParseRenderSlotTag_fields _ _).1
  · unfold luaGetCursorContextFromString
    dsimp only
    repeat' split
    all_goals first
      | exact Or.inl rfl
      | exact Or.inr (luaParseComponentTag_fields _ _).1
      | exact Or.inr (luaParseOnTag_fields _ _).1
      | exact Or.inr (luaParseFillTag_fields _ _).1
      | exact Or.inr (luaParseRenderSlotTag_fields _ _).1
  · unfold tsGetCursorContext
    dsimp only
    repeat' split
    all_goals first
      | exact Or.inl rfl
      | exact Or.inr (tsParseComponentTag_fields _ _ _).1
      | exact Or.inr (tsParseOnTag_fields _ _).1
      | exact Or.inr (tsParseFillTag_fields _ _).1
      | exact Or.inr (tsParseRenderSlotTag_fields _ _).1

/-- Claim C10: whenever the TypeScript locator finds no enclosing tag,
getCursorContext returns the outside context with the in-tag flag false
and componentName taken from findComponentContext; that resolver takes
the last opening component_block before the offset with no matching of
closing tags — a cursor after a fully closed block still reports the
block's name — and falls back to the last wireview-component HTML
attribute. -/
theorem claim10_outside_component_context (content : Str) (offset : Nat)
    (h : tsFindEnclosingTag content offset = none) :
    tsGetCursorContext content offset =
      { inWireviewTag := false, tagType := none, position := CursorPosition.OUTSIDE,
        componentName := tsFindComponentContext content offset } ∧
    tsFindComponentContext docClosedBlock (docClosedBlock.length - 1) = some "A".toList ∧
    tsFindComponentContext docWVAttr docWVAttr.length = some "B".toList := by
  refine ⟨?_, by decide, by decide⟩
  unfold tsGetCursorContext
  rw [h]

/-- Claim C10, witness: the statement applied after a fully closed
component block, where the outside context still carries that block's
name. -/
theorem claim10_witness :
    tsGetCursorContext docClosedBlock (docClosedBlock.length - 1) =
      { inWireviewTag := false, tagType := none, position := CursorPosition.OUTSIDE,
        componentName := tsFindComponentContext docClosedBlock (docClosedBlock.length - 1) } ∧
    (tsGetCursorContext docClosedBlock (docClosedBlock.length - 1)).componentName =
      some "A".toList := by
  refine ⟨(claim10_outside_component_context docClosedBlock (docClosedBlock.length - 1)
    (by decide)).1, ?_⟩
  rw [(claim10_outside_component_context docClosedBlock (docClosedBlock.length - 1)
    (by decide)).1]
  decide

end Wireview
